import Mathlib

/-!
Verification of the h11 HTTP/1.1 connection core (`src/h11/_connection.py`)
against its natural-language specification.

Byte strings are embedded as `List Nat` (one entry per byte).  The helper
modules of the repository (`_headers`, `_state`, `_readers`, `_writers`,
`_receivebuffer`, `_util`) are not part of the provided source tree; the
definitions standing in for them are modelled from the specification text and
are marked `Modelled from the spec:` in their doc comments.  Everything else
is translated directly from `_connection.py`.

Python exceptions are embedded as an explicit error type `HErr`; stateful
methods return the connection value reached at the moment an exception is
raised, so that the error-handling behaviour of the source (which mutates the
connection in place before an exception propagates) stays observable.
-/

namespace H11

/-- A byte string: one `Nat` per byte. -/
abbrev Bytes := List Nat

/-- Convert a Lean string literal of ASCII text into the byte-list embedding. -/
def bs (s : String) : Bytes := s.toList.map Char.toNat

/-- ASCII lowercasing of a single byte, as done by Python `bytes.lower()`. -/
def lowerByte (n : Nat) : Nat := if 65 ≤ n ∧ n ≤ 90 then n + 32 else n

/-- ASCII lowercasing of a byte string. -/
def lowerB (b : Bytes) : Bytes := b.map lowerByte

/-- Python whitespace bytes stripped by `bytes.strip()`:
space, tab, newline, carriage return, vertical tab, form feed. -/
def isPyWS (n : Nat) : Bool := n = 32 ∨ n = 9 ∨ n = 10 ∨ n = 13 ∨ n = 11 ∨ n = 12

/-- `bytes.strip()`: drop leading and trailing ASCII whitespace. -/
def bstrip (b : Bytes) : Bytes :=
  ((b.dropWhile isPyWS).reverse.dropWhile isPyWS).reverse

/-- Helper for `splitComma`: accumulates the current field (reversed). -/
def splitCommaAux : Bytes → Bytes → List Bytes
  | [], cur => [cur.reverse]
  | c :: rest, cur =>
    if c = 44 then cur.reverse :: splitCommaAux rest []
    else splitCommaAux rest (c :: cur)

/-- Split a byte string on commas (byte 44). -/
def splitComma (b : Bytes) : List Bytes := splitCommaAux b []

/-- Lexicographic strict order on byte strings (Python `bytes` comparison). -/
def bytesLt : Bytes → Bytes → Bool
  | [], [] => false
  | [], _ :: _ => true
  | _ :: _, [] => false
  | a :: as, b' :: bs' =>
    if a < b' then true else if b' < a then false else bytesLt as bs'

/-- Insert into a lexicographically sorted list of byte strings. -/
def insertSorted (v : Bytes) : List Bytes → List Bytes
  | [] => [v]
  | w :: ws => if bytesLt v w then v :: w :: ws else w :: insertSorted v ws

/-- Sort a list of byte strings lexicographically (Python `sorted`). -/
def sortBytes (l : List Bytes) : List Bytes := l.foldr insertSorted []

/-- Remove duplicates, keeping one copy of each element (Python `set`
semantics; the result is subsequently sorted, so order does not matter). -/
def dedupB : List Bytes → List Bytes
  | [] => []
  | v :: vs => let r := dedupB vs; if v ∈ r then r else v :: r

/-- Header list: ordered `(name, value)` pairs of raw bytes. -/
abbrev Headers := List (Bytes × Bytes)

/-- Modelled from the spec: `get_comma_header(headers, name)` of the missing
`_headers` module: returns the concatenation of all values with the given
case-insensitive name, split on commas, each element trimmed of surrounding
whitespace, lowercased. -/
def getCommaHeader (hs : Headers) (name : Bytes) : List Bytes :=
  ((hs.filter (fun p => lowerB p.1 == lowerB name)).map
    (fun p => (splitComma p.2).map (fun v => lowerB (bstrip v)))).flatten

/-- Modelled from the spec: `set_comma_header(headers, name, values)` of the
missing `_headers` module: removes all existing entries with that
case-insensitive name and appends one entry per value. -/
def setCommaHeader (hs : Headers) (name : Bytes) (vals : List Bytes) : Headers :=
  hs.filter (fun p => !(lowerB p.1 == lowerB name)) ++ vals.map (fun v => (name, v))

/-- The per-role protocol states of the state machine. -/
inductive RState
  | idle
  | sendResponse
  | sendBody
  | done
  | mustClose
  | closed
  | mightSwitchProtocol
  | switchedProtocol
  | error
deriving DecidableEq, Repr

/-- The two connection roles. -/
inductive Role
  | client
  | server
deriving DecidableEq, Repr

/-- The complementary role. -/
def otherRole : Role → Role
  | .client => .server
  | .server => .client

/-- Protocol-switch proposal kinds (`_SWITCH_UPGRADE`, `_SWITCH_CONNECT`). -/
inductive Switch
  | upgrade
  | connect
deriving DecidableEq, Repr

/-- The event variants of the wire-facing surface plus the `Paused`
pseudo-event. -/
inductive Event
  | request (method : Bytes) (target : Bytes) (headers : Headers) (httpVersion : Bytes)
  | informationalResponse (statusCode : Nat) (headers : Headers) (httpVersion : Bytes)
  | response (statusCode : Nat) (headers : Headers) (httpVersion : Bytes)
  | data (d : Bytes)
  | endOfMessage (headers : Headers)
  | connectionClosed
  | paused (reason : RState)
deriving DecidableEq, Repr

/-- The `type(event)` discriminator used by the state machine. -/
inductive EType
  | request
  | informationalResponse
  | response
  | data
  | endOfMessage
  | connectionClosed
  | paused
deriving DecidableEq, Repr

/-- Event type of an event. -/
def Event.etype : Event → EType
  | .request .. => .request
  | .informationalResponse .. => .informationalResponse
  | .response .. => .response
  | .data .. => .data
  | .endOfMessage .. => .endOfMessage
  | .connectionClosed => .connectionClosed
  | .paused _ => .paused

/-- Embedded Python exceptions.  `protocolError` is the single protocol error
kind of the library, carrying a message and an optional HTTP status hint;
`assertionError`, `runtimeError` and `valueError` embed the corresponding
built-in Python exceptions; `fuelExhausted` is the shallow-embedding artifact
standing for a non-terminating parse loop (it can only arise when the
explicit fuel of `receiveLoop` runs out). -/
inductive HErr
  | protocolError (msg : String) (hint : Option Nat)
  | assertionError (msg : String)
  | runtimeError (msg : String)
  | valueError (msg : String)
  | fuelExhausted
deriving DecidableEq, Repr

/-- Result of the body-framing decision: the `(lookup key, *args)` pairs
`("content-length", n)`, `("chunked", ())`, `("http/1.0", ())`. -/
inductive Framing
  | contentLength (n : Int)
  | chunked
  | http10
deriving DecidableEq, Repr

/-- Python `int()` applied to a byte string: optional surrounding whitespace,
optional sign, one or more decimal digits; anything else raises ValueError. -/
def pyIntParse (b : Bytes) : Except HErr Int :=
  let t := bstrip b
  let (neg, digits) :=
    match t with
    | 43 :: r => (false, r)
    | 45 :: r => (true, r)
    | r => (false, r)
  if digits ≠ [] ∧ digits.all (fun n => 48 ≤ n ∧ n ≤ 57) then
    let v : Nat := digits.foldl (fun acc d => acc * 10 + (d - 48)) 0
    .ok (if neg then -(v : Int) else (v : Int))
  else
    .error (.valueError "invalid literal for int")

/-- Headers of an event, where present (`event.headers`). -/
def Event.headersOf : Event → Headers
  | .request _ _ hs _ => hs
  | .informationalResponse _ hs _ => hs
  | .response _ hs _ => hs
  | .endOfMessage hs => hs
  | _ => []

/-- `getattr(event, "http_version", b"1.1")`. -/
def Event.httpVersionOf : Event → Bytes
  | .request _ _ _ v => v
  | .informationalResponse _ _ v => v
  | .response _ _ v => v
  | _ => bs "1.1"

/-- `_keep_alive(event)` from `_connection.py`: false iff the Connection
header contains `close` or the HTTP version is below 1.1. -/
def keepAliveEv (e : Event) : Bool :=
  let conn := getCommaHeader e.headersOf (bs "Connection")
  if bs "close" ∈ conn then false
  else if bytesLt e.httpVersionOf (bs "1.1") then false
  else true

/-- `_body_framing(request_method, event)` from `_connection.py`.  The
`assert` statements of the source are embedded as `assertionError` results. -/
def bodyFraming (requestMethod : Option Bytes) (e : Event) : Except HErr Framing :=
  match e with
  | .request _ _ hs _ => bodyFramingHeaders true hs
  | .response code hs _ =>
    if code = 204 ∨ code = 304 ∨ requestMethod = some (bs "HEAD")
        ∨ (requestMethod = some (bs "CONNECT") ∧ 200 ≤ code ∧ code < 300) then
      .ok (.contentLength 0)
    else if code < 200 then
      .error (.assertionError "event.status_code >= 200")
    else
      bodyFramingHeaders false hs
  | _ => .error (.assertionError "type(event) in (Request, Response)")
where
  /-- Steps 2-4 of `_body_framing`: Transfer-Encoding beats Content-Length;
  the fallback depends on whether the event is a request. -/
  bodyFramingHeaders (isRequest : Bool) (hs : Headers) : Except HErr Framing :=
    let te := getCommaHeader hs (bs "Transfer-Encoding")
    if te ≠ [] then
      if te = [bs "chunked"] then .ok .chunked
      else .error (.assertionError "transfer_encodings == [b\x22chunked\x22]")
    else
      match getCommaHeader hs (bs "Content-Length") with
      | [] => if isRequest then .ok (.contentLength 0) else .ok .http10
      | v :: _ => (pyIntParse v).map .contentLength

/-- Modelled from the spec: the connection-scoped state of the missing
`_state` module (`ConnectionState`): per-role states, the keep-alive latch
(starts true, latches to false), and the pending protocol-switch proposals. -/
structure CState where
  client : RState
  server : RState
  keepAlive : Bool
  pending : List Switch
deriving DecidableEq, Repr

/-- The freshly initialised connection state. -/
def CState.initial : CState :=
  { client := .idle, server := .idle, keepAlive := true, pending := [] }

/-- State of the given role. -/
def CState.stateOf (s : CState) : Role → RState
  | .client => s.client
  | .server => s.server

/-- Replace the state of the given role. -/
def CState.setState (s : CState) : Role → RState → CState
  | .client, st => { s with client := st }
  | .server, st => { s with server := st }

/-- Modelled from the spec: the state-triggered transitions of the missing
`_state` module, applied after every change until a fixed point: a client in
`DONE` with pending switch proposals moves to `MIGHT_SWITCH_PROTOCOL`; a
client in `MIGHT_SWITCH_PROTOCOL` with no pending proposals resumes `DONE`;
with keep-alive disabled, `DONE` becomes `MUST_CLOSE` for either role.  One
pass in this order already reaches the fixed point: the first rule removes
every DONE-with-proposals client, the second fires only with no proposals
left, and the third never produces a `DONE` state. -/
def CState.fire (s : CState) : CState :=
  let s := if s.pending ≠ [] ∧ s.client = .done
    then { s with client := .mightSwitchProtocol } else s
  let s := if s.pending = [] ∧ s.client = .mightSwitchProtocol
    then { s with client := .done } else s
  let s := if !s.keepAlive ∧ s.client = .done
    then { s with client := .mustClose } else s
  let s := if !s.keepAlive ∧ s.server = .done
    then { s with server := .mustClose } else s
  s

/-- Modelled from the spec: `process_error` of the missing `_state` module:
the given role transitions to `ERROR`; the other role is unaffected. -/
def CState.processError (s : CState) (role : Role) : CState :=
  s.setState role .error

/-- Modelled from the spec: `process_keep_alive_disabled` of the missing
`_state` module: latches `keep_alive` to false. -/
def CState.processKeepAliveDisabled (s : CState) : CState :=
  CState.fire { s with keepAlive := false }

/-- Modelled from the spec: `process_client_switch_proposals` of the missing
`_state` module: adds the proposals announced by a client request to the
pending set. -/
def CState.processClientSwitchProposals (s : CState) (props : List Switch) : CState :=
  CState.fire { s with pending := props.foldl (fun acc p => if p ∈ acc then acc else acc ++ [p]) s.pending }

/-- Modelled from the spec: the event-triggered transition table of the
missing `_state` module, for events processed without a committed protocol
switch (section 4.5 of the spec). -/
def eventTransition (role : Role) (st : RState) (t : EType) : Option RState :=
  match role, st, t with
  | .client, .idle, .request => some .sendBody
  | .client, .idle, .connectionClosed => some .closed
  | .client, .sendBody, .data => some .sendBody
  | .client, .sendBody, .endOfMessage => some .done
  | .client, .done, .connectionClosed => some .closed
  | .client, .mustClose, .connectionClosed => some .closed
  | .client, .closed, .connectionClosed => some .closed
  | .server, .idle, .connectionClosed => some .closed
  | .server, .sendResponse, .informationalResponse => some .sendResponse
  | .server, .sendResponse, .response => some .sendBody
  | .server, .sendBody, .data => some .sendBody
  | .server, .sendBody, .endOfMessage => some .done
  | .server, .done, .connectionClosed => some .closed
  | .server, .mustClose, .connectionClosed => some .closed
  | .server, .closed, .connectionClosed => some .closed
  | _, _, _ => none

/-- Modelled from the spec: `process_event` of the missing `_state` module.
A committed server switch (101-upgrade or CONNECT accepted with 2xx) moves
both sides to `SWITCHED_PROTOCOL` and requires the matching pending proposal;
a plain server `Response` drains the pending proposals; otherwise the
event-triggered table fires for the acting role, a client `Request`
additionally moves an idle server to `SEND_RESPONSE`, and the state-triggered
transitions run afterwards. -/
def CState.processEvent (s : CState) (role : Role) (t : EType)
    (serverSwitch : Option Switch) : Except HErr CState :=
  match serverSwitch with
  | some sw =>
    if role = .server then
      if sw ∈ s.pending then
        match t, s.server with
        | .informationalResponse, .sendResponse =>
          if sw = .upgrade then
            .ok (CState.fire { s with server := .switchedProtocol,
                                      client := .switchedProtocol, pending := [] })
          else .error (.protocolError "unexpected switch commit" none)
        | .response, .sendResponse =>
          if sw = .connect then
            .ok (CState.fire { s with server := .switchedProtocol,
                                      client := .switchedProtocol, pending := [] })
          else .error (.protocolError "unexpected switch commit" none)
        | _, _ => .error (.protocolError "unexpected event for switch commit" none)
      else .error (.protocolError "no matching pending switch proposal" none)
    else .error (.assertionError "role is SERVER")
  | none =>
    let s := if t = .response then { s with pending := [] } else s
    match eventTransition role (s.stateOf role) t with
    | none => .error (.protocolError "event type not allowed in current state" none)
    | some st' =>
      let s := s.setState role st'
      let s := if role = .client ∧ t = .request ∧ s.server = .idle
        then { s with server := .sendResponse } else s
      .ok (CState.fire s)

/-- Modelled from the spec: `prepare_to_reuse` of the missing `_state`
module: requires both roles in `DONE` and `keep_alive` true, otherwise fails
with a protocol error; on success resets both roles to `IDLE`. -/
def CState.prepareToReuse (s : CState) : Except HErr CState :=
  if s.client = .done ∧ s.server = .done ∧ s.keepAlive then
    .ok { s with client := .idle, server := .idle }
  else
    .error (.protocolError "not in a reusable state" none)

/-- Split a byte string at the first double CRLF, returning the part before
it and the part after it. -/
def splitAtDoubleCRLF : Bytes → Option (Bytes × Bytes)
  | 13 :: 10 :: 13 :: 10 :: rest => some ([], rest)
  | c :: rest => (splitAtDoubleCRLF rest).map (fun pr => (c :: pr.1, pr.2))
  | [] => none

/-- Split a byte string at the first CRLF, returning the part before it and
the part after it. -/
def splitAtCRLF : Bytes → Option (Bytes × Bytes)
  | 13 :: 10 :: rest => some ([], rest)
  | c :: rest => (splitAtCRLF rest).map (fun pr => (c :: pr.1, pr.2))
  | [] => none

/-- Split a header block (with no terminating blank line) into its
CRLF-separated lines. -/
def splitLinesCRLF : Bytes → List Bytes
  | 13 :: 10 :: rest => [] :: splitLinesCRLF rest
  | c :: rest =>
    match splitLinesCRLF rest with
    | [] => [[c]]
    | l :: ls => (c :: l) :: ls
  | [] => [[]]

/-- Split a byte string at the first space (byte 32), if any. -/
def splitAtSpace : Bytes → Option (Bytes × Bytes)
  | 32 :: rest => some ([], rest)
  | c :: rest => (splitAtSpace rest).map (fun pr => (c :: pr.1, pr.2))
  | [] => none

/-- Split a byte string at the first colon (byte 58), if any. -/
def splitAtColon : Bytes → Option (Bytes × Bytes)
  | 58 :: rest => some ([], rest)
  | c :: rest => (splitAtColon rest).map (fun pr => (c :: pr.1, pr.2))
  | [] => none

/-- Modelled from the spec: parsing of the header-field lines of the missing
`_readers` module: each line is `name: value`; a line starting with space or
tab (obsolete line folding) is rejected, as is a line with no colon or an
empty field name. -/
def parseHeaderLines : List Bytes → Except HErr Headers
  | [] => .ok []
  | line :: rest =>
    if line.head? = some 32 ∨ line.head? = some 9 then
      .error (.protocolError "obsolete line folding" (some 400))
    else
      match splitAtColon line with
      | none => .error (.protocolError "malformed header line" (some 400))
      | some (name, value) =>
        if name = [] ∨ 32 ∈ name ∨ 9 ∈ name then
          .error (.protocolError "malformed header name" (some 400))
        else
          (parseHeaderLines rest).map (fun hs => (name, bstrip value) :: hs)

/-- Modelled from the spec: the request-line parser of the missing `_readers`
module: `METHOD SP target SP HTTP/x.y`. -/
def parseRequestLine (line : Bytes) : Except HErr Event :=
  match splitAtSpace line with
  | none => .error (.protocolError "malformed request line" (some 400))
  | some (method, rest) =>
    match splitAtSpace rest with
    | none => .error (.protocolError "malformed request line" (some 400))
    | some (target, proto) =>
      if (bs "HTTP/").isPrefixOf proto ∧ method ≠ [] ∧ target ≠ [] then
        .ok (.request method target [] (proto.drop 5))
      else
        .error (.protocolError "malformed request line" (some 400))

/-- Decimal digit parse of a byte string (used for status codes). -/
def parseDecimal (b : Bytes) : Option Nat :=
  if b ≠ [] ∧ b.all (fun n => 48 ≤ n ∧ n ≤ 57) then
    some (b.foldl (fun acc d => acc * 10 + (d - 48)) 0)
  else none

/-- Modelled from the spec: the status-line parser of the missing `_readers`
module: `HTTP/x.y code reason`; a 1xx code yields an
`InformationalResponse`, a code of at least 200 a `Response`.  The parsed
event carries an empty header list, filled in by the reader. -/
def parseStatusLine (line : Bytes) : Except HErr Event :=
  match splitAtSpace line with
  | none => .error (.protocolError "malformed status line" (some 502))
  | some (proto, rest) =>
    let codeB := match splitAtSpace rest with
      | some (c, _) => c
      | none => rest
    match parseDecimal codeB with
    | none => .error (.protocolError "malformed status code" (some 502))
    | some code =>
      if (bs "HTTP/").isPrefixOf proto ∧ 100 ≤ code then
        if code ≤ 199 then .ok (.informationalResponse code [] (proto.drop 5))
        else .ok (.response code [] (proto.drop 5))
      else .error (.protocolError "malformed status line" (some 502))

/-- Modelled from the spec: the state of the active reader of the missing
`_readers` module.  `requestHeaders` and `responseHeaders` are the
request/response line + header block readers; the body readers are keyed by
the framing decision; `expectNothing` is the reader installed in
`DONE`/`MUST_CLOSE`/`CLOSED` states, which only tolerates an empty buffer. -/
inductive ReaderSt
  | requestHeaders
  | responseHeaders
  | contentLengthBody (remaining : Int)
  | chunkedSize
  | chunkedBody (remaining : Nat)
  | chunkedEnd
  | chunkedTrailers
  | http10Body
  | expectNothing
deriving DecidableEq, Repr

/-- Modelled from the spec: parse the trailer section of a chunked body: a
possibly empty run of header lines terminated by a blank line.  Returns the
final `EndOfMessage` carrying the trailers, or `none` if the terminator has
not arrived yet. -/
def readChunkedTrailers (b : Bytes) : Except HErr (Option Event × Bytes × ReaderSt) :=
  match b with
  | 13 :: 10 :: rest => .ok (some (.endOfMessage []), rest, .chunkedTrailers)
  | _ =>
    match splitAtDoubleCRLF b with
    | none => .ok (none, b, .chunkedTrailers)
    | some (block, rest) =>
      (parseHeaderLines (splitLinesCRLF block)).map
        (fun hs => (some (.endOfMessage hs), rest, .chunkedTrailers))

/-- Hexadecimal parse of a byte string (chunk sizes). -/
def parseHex (b : Bytes) : Option Nat :=
  let hexVal : Nat → Option Nat := fun n =>
    if 48 ≤ n ∧ n ≤ 57 then some (n - 48)
    else if 97 ≤ n ∧ n ≤ 102 then some (n - 87)
    else if 65 ≤ n ∧ n ≤ 70 then some (n - 55)
    else none
  if b = [] then none
  else b.foldl (fun acc d => do (← acc) * 16 + (← hexVal d)) (some 0)

/-- Modelled from the spec: parse one chunk-size line (with optional ignored
chunk extension) and, when the chunk is non-empty, emit the first slice of
its data in the same invocation; a zero size moves on to the trailers. -/
def readChunkSize (b : Bytes) : Except HErr (Option Event × Bytes × ReaderSt) :=
  match splitAtCRLF b with
  | none => .ok (none, b, .chunkedSize)
  | some (line, rest) =>
    let sizeB := bstrip (line.takeWhile (fun c => c ≠ 59))
    match parseHex sizeB with
    | none => .error (.protocolError "malformed chunk size" (some 400))
    | some 0 => readChunkedTrailers rest
    | some k =>
      if rest = [] then .ok (none, rest, .chunkedBody k)
      else
        let j := min rest.length k
        .ok (some (.data (rest.take j)), rest.drop j,
             if j < k then .chunkedBody (k - j) else .chunkedEnd)

/-- Modelled from the spec: one invocation of the active reader of the
missing `_readers` module on the receive buffer.  Returns an optional event
(`none` means more data is needed), the remaining buffer, and the updated
reader state.  The buffer-size cap is enforced by the facade
(`receive_data`), not here. -/
def runReader : ReaderSt → Bytes → Except HErr (Option Event × Bytes × ReaderSt)
  | .requestHeaders, b =>
    match splitAtDoubleCRLF b with
    | none => .ok (none, b, .requestHeaders)
    | some (block, rest) =>
      match splitLinesCRLF block with
      | [] => .error (.protocolError "missing request line" (some 400))
      | line :: hlines => do
        let ev ← parseRequestLine line
        let hs ← parseHeaderLines hlines
        match ev with
        | .request m t _ v => .ok (some (.request m t hs v), rest, .requestHeaders)
        | _ => .error (.protocolError "malformed request line" (some 400))
  | .responseHeaders, b =>
    match splitAtDoubleCRLF b with
    | none => .ok (none, b, .responseHeaders)
    | some (block, rest) =>
      match splitLinesCRLF block with
      | [] => .error (.protocolError "missing status line" (some 502))
      | line :: hlines => do
        let ev ← parseStatusLine line
        let hs ← parseHeaderLines hlines
        match ev with
        | .informationalResponse code _ v =>
          .ok (some (.informationalResponse code hs v), rest, .responseHeaders)
        | .response code _ v => .ok (some (.response code hs v), rest, .responseHeaders)
        | _ => .error (.protocolError "malformed status line" (some 502))
  | .contentLengthBody n, b =>
    if n ≤ 0 then .ok (some (.endOfMessage []), b, .contentLengthBody 0)
    else if b = [] then .ok (none, b, .contentLengthBody n)
    else
      let k := min b.length n.toNat
      .ok (some (.data (b.take k)), b.drop k, .contentLengthBody (n - (k : Int)))
  | .chunkedSize, b => readChunkSize b
  | .chunkedBody n, b =>
    if b = [] then .ok (none, b, .chunkedBody n)
    else
      let k := min b.length n
      .ok (some (.data (b.take k)), b.drop k,
           if k < n then .chunkedBody (n - k) else .chunkedEnd)
  | .chunkedEnd, b =>
    match b with
    | 13 :: 10 :: rest => readChunkSize rest
    | [] => .ok (none, b, .chunkedEnd)
    | [13] => .ok (none, b, .chunkedEnd)
    | _ => .error (.protocolError "missing CRLF after chunk data" (some 400))
  | .chunkedTrailers, b => readChunkedTrailers b
  | .http10Body, b =>
    if b = [] then .ok (none, b, .http10Body)
    else .ok (some (.data b), [], .http10Body)
  | .expectNothing, b =>
    if b = [] then .ok (none, b, .expectNothing)
    else .error (.protocolError "got data when none was expected" none)

/-- Modelled from the spec: the `read_eof()` hook.  Only the HTTP/1.0 body
reader has it; it produces `EndOfMessage` with empty trailers. -/
def readerReadEof : ReaderSt → Option Event
  | .http10Body => some (.endOfMessage [])
  | _ => none

/-- Modelled from the spec: the `(role, state)` part of the `READERS`
registry of the missing `_readers` module.  The role is the role being read
from; `SEND_BODY` is handled separately through the framing decision. -/
def readersFor : Role → RState → Option ReaderSt
  | .client, .idle => some .requestHeaders
  | .server, .idle => some .responseHeaders
  | .server, .sendResponse => some .responseHeaders
  | _, .done => some .expectNothing
  | _, .mustClose => some .expectNothing
  | _, .closed => some .expectNothing
  | _, _ => none

/-- Modelled from the spec: the `SEND_BODY` sub-map of the `READERS`
registry, keyed by the framing decision. -/
def bodyReaderFor : Framing → ReaderSt
  | .contentLength n => .contentLengthBody n
  | .chunked => .chunkedSize
  | .http10 => .http10Body

/-- Modelled from the spec: the state of the active writer of the missing
`_writers` module.  `requestW` serializes a request line plus headers,
`responseW` a status line plus headers (also for informational responses);
the body writers are keyed by the framing decision. -/
inductive WriterSt
  | requestW
  | responseW
  | contentLengthW (remaining : Int)
  | chunkedW
  | http10W
deriving DecidableEq, Repr

/-- Serialize a header block, one `name: value CRLF` line per pair. -/
def renderHeaders (hs : Headers) : Bytes :=
  (hs.map (fun p => p.1 ++ bs ": " ++ p.2 ++ bs "\r\n")).flatten

/-- Decimal digits of a natural number. -/
def natToDecimal (n : Nat) : Bytes := (Nat.toDigits 10 n).map Char.toNat

/-- Hexadecimal digits of a natural number (chunk-size lines). -/
def natToHex (n : Nat) : Bytes := (Nat.toDigits 16 n).map Char.toNat

/-- Modelled from the spec: the standard reason-phrase table used by the
response writer (pass-through of caller-supplied phrases is not modelled:
the embedded `Response` events carry no reason field). -/
def reasonPhrase (code : Nat) : Bytes :=
  if code = 200 then bs "OK"
  else if code = 101 then bs "Switching Protocols"
  else if code = 404 then bs "Not Found"
  else []

/-- Modelled from the spec: one invocation of a writer of the missing
`_writers` module: serializes the event into a list of byte slices and
returns the updated writer state.  `Data` payloads are passed through as
whole slices (the zero-copy guarantee). -/
def runWriter : WriterSt → Event → Except HErr (List Bytes × WriterSt)
  | .requestW, .request m t hs _ =>
    .ok ([m ++ bs " " ++ t ++ bs " HTTP/1.1\r\n" ++ renderHeaders hs ++ bs "\r\n"],
         .requestW)
  | .responseW, .response code hs _ =>
    .ok ([bs "HTTP/1.1 " ++ natToDecimal code ++ bs " " ++ reasonPhrase code
          ++ bs "\r\n" ++ renderHeaders hs ++ bs "\r\n"], .responseW)
  | .responseW, .informationalResponse code hs _ =>
    .ok ([bs "HTTP/1.1 " ++ natToDecimal code ++ bs " " ++ reasonPhrase code
          ++ bs "\r\n" ++ renderHeaders hs ++ bs "\r\n"], .responseW)
  | .contentLengthW n, .data d =>
    if (d.length : Int) ≤ n then .ok ([d], .contentLengthW (n - d.length))
    else .error (.protocolError "too much data for declared Content-Length" none)
  | .contentLengthW n, .endOfMessage _ => .ok ([], .contentLengthW n)
  | .chunkedW, .data d =>
    if d = [] then .ok ([], .chunkedW)
    else .ok ([natToHex d.length ++ bs "\r\n", d, bs "\r\n"], .chunkedW)
  | .chunkedW, .endOfMessage trailers =>
    .ok ([bs "0\r\n" ++ renderHeaders trailers ++ bs "\r\n"], .chunkedW)
  | .http10W, .data d => .ok ([d], .http10W)
  | .http10W, .endOfMessage _ => .ok ([], .http10W)
  | _, _ => .error (.protocolError "event type not handled by active writer" none)

/-- Modelled from the spec: the `(role, state)` part of the `WRITERS`
registry of the missing `_writers` module. -/
def writersFor : Role → RState → Option WriterSt
  | .client, .idle => some .requestW
  | .server, .sendResponse => some .responseW
  | _, _ => none

/-- Modelled from the spec: the `SEND_BODY` sub-map of the `WRITERS`
registry, keyed by the framing decision. -/
def bodyWriterFor : Framing → WriterSt
  | .contentLength n => .contentLengthW n
  | .chunked => .chunkedW
  | .http10 => .http10W

/-- The `Connection` object of `_connection.py`: role, buffer-size cap,
state machine, active reader and writer, receive buffer with its closed
flag, and the extra bits of state (`their_http_version`, `_request_method`,
`client_is_waiting_for_100_continue`). -/
structure Conn where
  ourRole : Role
  maxBufferSize : Nat
  cstate : CState
  reader : Option ReaderSt
  writer : Option WriterSt
  receiveBuffer : Bytes
  receiveBufferClosed : Bool
  theirHttpVersion : Option Bytes
  requestMethod : Option Bytes
  clientWaiting100 : Bool
deriving DecidableEq, Repr

/-- `HTTP_DEFAULT_MAX_BUFFER_SIZE` from `_connection.py`. -/
def HTTP_DEFAULT_MAX_BUFFER_SIZE : Nat := 16 * 1024

/-- `their_role` of a connection. -/
def Conn.theirRole (c : Conn) : Role := otherRole c.ourRole

/-- `state_of(role)`. -/
def Conn.stateOf (c : Conn) (role : Role) : RState := c.cstate.stateOf role

/-- `our_state`. -/
def Conn.ourState (c : Conn) : RState := c.stateOf c.ourRole

/-- `their_state`. -/
def Conn.theirState (c : Conn) : RState := c.stateOf c.theirRole

/-- `trailing_data`: the buffered unprocessed bytes and whether the receive
side saw end-of-file after them. -/
def Conn.trailingData (c : Conn) : Bytes × Bool :=
  (c.receiveBuffer, c.receiveBufferClosed)

/-- `Connection.__init__`: both roles idle, reader and writer drawn from the
registries for the idle states. -/
def mkConnection (ourRole : Role) (maxBufferSize : Nat) : Conn :=
  { ourRole := ourRole
    maxBufferSize := maxBufferSize
    cstate := CState.initial
    reader := readersFor (otherRole ourRole) .idle
    writer := writersFor ourRole .idle
    receiveBuffer := []
    receiveBufferClosed := false
    theirHttpVersion := none
    requestMethod := none
    clientWaiting100 := false }

/-- `_get_io_object` for readers: in `SEND_BODY` the reader is built from the
body-framing decision (which may raise); otherwise it is looked up in the
`(role, state)` registry.  `event` is the event that caused the state change
(`none` outside event processing). -/
def Conn.getReaderObj (c : Conn) (role : Role) (event : Option Event) :
    Except HErr (Option ReaderSt) :=
  if c.stateOf role = .sendBody then
    match event with
    | some e => (bodyFraming c.requestMethod e).map (fun f => some (bodyReaderFor f))
    | none => .error (.assertionError "type(event) in (Request, Response)")
  else
    .ok (readersFor role (c.stateOf role))

/-- `_get_io_object` for writers; exactly parallel to the reader case. -/
def Conn.getWriterObj (c : Conn) (role : Role) (event : Option Event) :
    Except HErr (Option WriterSt) :=
  if c.stateOf role = .sendBody then
    match event with
    | some e => (bodyFraming c.requestMethod e).map (fun f => some (bodyWriterFor f))
    | none => .error (.assertionError "type(event) in (Request, Response)")
  else
    .ok (writersFor role (c.stateOf role))

/-- The state a role had in the `old_states` snapshot `(client, server)`. -/
def pickOld (old : RState × RState) : Role → RState
  | .client => old.1
  | .server => old.2

/-- `_respond_to_state_changes(old_states, event)`: refresh the writer when
our state changed, then the reader when their state changed.  An exception
raised while building an io object (from `_body_framing`) propagates with
the partially updated connection. -/
def Conn.respondToStateChanges (c : Conn) (old : RState × RState)
    (event : Option Event) : Except (HErr × Conn) Conn :=
  match (if c.ourState ≠ pickOld old c.ourRole then
      match c.getWriterObj c.ourRole event with
      | .error e => .error (e, c)
      | .ok w => .ok { c with writer := w }
    else .ok c : Except (HErr × Conn) Conn) with
  | .error e => .error e
  | .ok c1 =>
    if c1.theirState ≠ pickOld old c1.theirRole then
      match c1.getReaderObj c1.theirRole event with
      | .error e => .error (e, c1)
      | .ok r => .ok { c1 with reader := r }
    else .ok c1

/-- `_process_error(role)`: move the role to `ERROR` and refresh the io
objects.  The refresh cannot fail (the `ERROR` state is not `SEND_BODY`), so
the fallback arm is unreachable. -/
def Conn.processError (c : Conn) (role : Role) : Conn :=
  let old := (c.cstate.client, c.cstate.server)
  let c := { c with cstate := c.cstate.processError role }
  match c.respondToStateChanges old none with
  | .ok c' => c'
  | .error (_, c') => c'

/-- `_client_switch_events(event)`: CONNECT proposes a CONNECT switch, an
Upgrade header proposes an upgrade. -/
def clientSwitchEvents (e : Event) : List Switch :=
  match e with
  | .request m _ hs _ =>
    (if m = bs "CONNECT" then [Switch.connect] else [])
      ++ (if getCommaHeader hs (bs "Upgrade") ≠ [] then [Switch.upgrade] else [])
  | _ => []

/-- `_server_switch_event(event)`: a 101 informational response commits an
upgrade; a 2xx response commits CONNECT when a CONNECT proposal is pending. -/
def Conn.serverSwitchEvent (c : Conn) (e : Event) : Option Switch :=
  match e with
  | .informationalResponse code _ _ => if code = 101 then some .upgrade else none
  | .response code _ _ =>
    if Switch.connect ∈ c.cstate.pending ∧ 200 ≤ code ∧ code < 300 then
      some .connect
    else none
  | _ => none

/-- `has_expect_100_continue(request)`.  Modelled from the spec for the
missing `_headers` module: true iff the request has HTTP version at least
1.1 and a case-insensitive Expect header containing `100-continue`. -/
def hasExpect100Continue (e : Event) : Bool :=
  match e with
  | .request _ _ hs v =>
    !bytesLt v (bs "1.1") ∧ bs "100-continue" ∈ getCommaHeader hs (bs "Expect")
  | _ => false

/-- `_process_event`, metadata step 1: record `self._request_method`. -/
def Conn.recordRequestMethod (c : Conn) (e : Event) : Conn :=
  match e with
  | .request m _ _ _ => { c with requestMethod := some m }
  | _ => c

/-- `_process_event`, metadata step 2: record `self.their_http_version`. -/
def Conn.recordTheirVersion (c : Conn) (role : Role) (e : Event) : Conn :=
  if role = c.theirRole ∧
      (e.etype = .request ∨ e.etype = .response ∨ e.etype = .informationalResponse) then
    { c with theirHttpVersion := some e.httpVersionOf }
  else c

/-- `_process_event`, metadata step 3: the keep-alive latch (a `Request` or
`Response` for which `_keep_alive` is false disables keep-alive; 1xx
responses are ignored). -/
def Conn.applyKeepAliveLatch (c : Conn) (e : Event) : Conn :=
  if (e.etype = .request ∨ e.etype = .response) ∧ !keepAliveEv e then
    { c with cstate := c.cstate.processKeepAliveDisabled }
  else c

/-- `_process_event`, metadata step 4: maintain
`client_is_waiting_for_100_continue`. -/
def Conn.update100Continue (c : Conn) (role : Role) (e : Event) : Conn :=
  let c :=
    if e.etype = .request ∧ hasExpect100Continue e then
      { c with clientWaiting100 := true }
    else c
  let c :=
    if e.etype = .informationalResponse ∨ e.etype = .response then
      { c with clientWaiting100 := false }
    else c
  let c :=
    if role = .client ∧ (e.etype = .data ∨ e.etype = .endOfMessage) then
      { c with clientWaiting100 := false }
    else c
  c

/-- The pure updates of `_process_event` performed after the state machine
has accepted the event, in source order: `request_method`,
`their_http_version`, the keep-alive latch, the 100-continue flag. -/
def Conn.recordEventEffects (c : Conn) (role : Role) (e : Event) : Conn :=
  (((c.recordRequestMethod e).recordTheirVersion role e).applyKeepAliveLatch e).update100Continue role e

/-- The first step of `_process_event`: a client `Request` records its
protocol-switch proposals before the state machine runs. -/
def Conn.proposalStep (c : Conn) (role : Role) (e : Event) : Conn :=
  if role = .client ∧ e.etype = .request then
    { c with cstate := c.cstate.processClientSwitchProposals (clientSwitchEvents e) }
  else c

/-- `_process_event(role, event)` from `_connection.py`: drive the state
machine (recording client switch proposals and detecting server switch
commits first), then apply the pure metadata updates and refresh the io
objects. -/
def Conn.processEvent (c : Conn) (role : Role) (e : Event) :
    Except (HErr × Conn) Conn :=
  let old := (c.cstate.client, c.cstate.server)
  let c1 := c.proposalStep role e
  match c1.cstate.processEvent role e.etype
      (if role = .server then c1.serverSwitchEvent e else none) with
  | .error err => .error (err, c1)
  | .ok cs =>
    (({ c1 with cstate := cs }).recordEventEffects role e).respondToStateChanges old (some e)

/-- `prepare_to_reuse` from `_connection.py`: run the state-machine reset
(which fails with a protocol error unless both roles are reusable), clear
`_request_method`, assert that no 100-continue wait is outstanding, and
refresh the io objects.  The assertion fires only after the states have
already been reset. -/
def Conn.prepareToReuse (c : Conn) : Except HErr Unit × Conn :=
  let old := (c.cstate.client, c.cstate.server)
  match c.cstate.prepareToReuse with
  | .error e => (.error e, c)
  | .ok cs =>
    let c := { c with cstate := cs, requestMethod := none }
    if c.clientWaiting100 then
      (.error (.assertionError "not self.client_is_waiting_for_100_continue"), c)
    else
      match c.respondToStateChanges old none with
      | .ok c' => (.ok (), c')
      | .error (e, c') => (.error e, c')

/-- The buffer-update prologue of `receive_data`: `none` means re-parse with
no new bytes; an empty byte string records end-of-file; non-empty bytes are
appended — unless end-of-file was already recorded, which raises
RuntimeError. -/
def Conn.updateBufferStep (c : Conn) (data : Option Bytes) :
    Except (HErr × Conn) Conn :=
  match data with
  | none => .ok c
  | some d =>
    if d ≠ [] then
      if c.receiveBufferClosed then
        .error (.runtimeError "received close, then received more data?", c)
      else
        .ok { c with receiveBuffer := c.receiveBuffer ++ d }
    else
      .ok { c with receiveBufferClosed := true }

/-- `_next_receive_event` from `_connection.py`: pause in `DONE` with a
non-empty buffer and in the protocol-switch states; otherwise invoke the
reader; when it needs more data, the buffer is empty and the peer has
half-closed, fall back to the `read_eof()` hook or a `ConnectionClosed`
event. -/
def Conn.nextReceiveEvent (c : Conn) : Except HErr (Option Event × Conn) :=
  let st := c.theirState
  if st = .done ∧ c.receiveBuffer ≠ [] then
    .ok (some (.paused st), c)
  else if st = .mightSwitchProtocol ∨ st = .switchedProtocol then
    .ok (some (.paused st), c)
  else
    match c.reader with
    | none => .error (.assertionError "self._reader is not None")
    | some r =>
      match runReader r c.receiveBuffer with
      | .error e => .error e
      | .ok (oev, buf, r') =>
        let c := { c with receiveBuffer := buf, reader := some r' }
        match oev with
        | some ev => .ok (some ev, c)
        | none =>
          if c.receiveBuffer = [] ∧ c.receiveBufferClosed then
            match readerReadEof r' with
            | some ev => .ok (some ev, c)
            | none => .ok (some .connectionClosed, c)
          else
            .ok (none, c)

/-- The `while True` event loop of `receive_data`, with explicit fuel
standing in for the unbounded Python loop: pull events until the reader
needs more data, a `Paused` pseudo-event is produced (which is not put
through the state machine), or a `ConnectionClosed` is processed. -/
def Conn.receiveLoop : Nat → Conn → List Event → Except (HErr × Conn) (List Event × Conn)
  | 0, c, _ => .error (.fuelExhausted, c)
  | fuel + 1, c, acc =>
    match c.nextReceiveEvent with
    | .error e => .error (e, c)
    | .ok (none, c) => .ok (acc, c)
    | .ok (some ev, c) =>
      let acc := acc ++ [ev]
      if ev.etype = .paused then .ok (acc, c)
      else
        match c.processEvent c.theirRole ev with
        | .error e => .error e
        | .ok c =>
          if ev.etype = .connectionClosed then .ok (acc, c)
          else Conn.receiveLoop fuel c acc

/-- Whether the last event of the list is `Paused`. -/
def lastIsPaused (evs : List Event) : Bool :=
  match evs.getLast? with
  | some (.paused _) => true
  | _ => false

/-- Whether the last event of the list is `Paused` or `ConnectionClosed`
(the `FINAL_EVENTS` of `receive_data`). -/
def lastIsFinal (evs : List Event) : Bool :=
  match evs.getLast? with
  | some (.paused _) => true
  | some .connectionClosed => true
  | _ => false

/-- The half-close check at the end of `receive_data`: if the peer has
half-closed, the event list must end in `Paused` or `ConnectionClosed`. -/
def Conn.closedCheck (c : Conn) (evs : List Event) :
    Except (HErr × Conn) (List Event × Conn) :=
  if c.receiveBufferClosed then
    if evs = [] ∨ !lastIsFinal evs then
      .error (.protocolError "peer unexpectedly closed connection" none, c)
    else .ok (evs, c)
  else .ok (evs, c)

/-- The epilogue of `receive_data`: enforce the buffer-size cap unless the
final event is `Paused`, then run the half-close check. -/
def Conn.postChecks (c : Conn) (evs : List Event) :
    Except (HErr × Conn) (List Event × Conn) :=
  if evs ≠ [] ∧ lastIsPaused evs then
    c.closedCheck evs
  else
    if c.receiveBuffer.length > c.maxBufferSize then
      .error (.protocolError "Receive buffer too long" (some 431), c)
    else c.closedCheck evs

/-- `receive_data(data)` from `_connection.py`.  `fuel` bounds the parse
loop (see `receiveLoop`).  The final connection value is returned alongside
the result; on any exception from within the body, `their_role` is moved to
`ERROR` before the error is returned. -/
def Conn.receiveData (c : Conn) (data : Option Bytes) (fuel : Nat) :
    Except HErr (List Event) × Conn :=
  if c.theirState = .error then
    (.error (.protocolError "Cannot receive data when peer state is ERROR" none), c)
  else
    match c.updateBufferStep data with
    | .error (e, c') => (.error e, c'.processError c'.theirRole)
    | .ok c0 =>
      match Conn.receiveLoop fuel c0 [] with
      | .error (e, c') => (.error e, c'.processError c'.theirRole)
      | .ok (evs, c1) =>
        match c1.postChecks evs with
        | .error (e, c') => (.error e, c'.processError c'.theirRole)
        | .ok (evs', c') => (.ok evs', c')

/-- The `Connection` header tokens written by the response-header cleanup:
the current comma-list as a set, with `keep-alive` discarded, `close` added,
and the result sorted (Python `sorted(set(...))`). -/
def closeConnVals (headers : Headers) : List Bytes :=
  sortBytes (dedupB ((getCommaHeader headers (bs "Connection")).filter
    (fun t => t ≠ bs "keep-alive") ++ [bs "close"]))

/-- The peer-version test of `_clean_up_response_headers_for_sending`:
`self.their_http_version is None or self.their_http_version < b"1.1"`. -/
def Conn.peerIsHttp10OrUnknown (c : Conn) : Bool :=
  match c.theirHttpVersion with
  | none => true
  | some v => bytesLt v (bs "1.1")

/-- `_clean_up_response_headers_for_sending(response)` from
`_connection.py`: for a body of unknown length (`chunked` or `http/1.0`
framing) strip `Content-Length` and either strip `Transfer-Encoding` and
mark close-needed (HTTP/1.0 or unknown peer) or set
`Transfer-Encoding: chunked`; then, when keep-alive is disabled or close is
needed, rebuild the `Connection` header with `close` added and `keep-alive`
discarded.  Returns the response event carrying the fresh cleaned header
list. -/
def Conn.cleanUpResponseHeadersForSending (c : Conn) (e : Event) :
    Except HErr Event :=
  match e with
  | .response code hs ver =>
    match bodyFraming c.requestMethod (.response code hs ver) with
    | .error err => .error err
    | .ok framing =>
    let (headers, needClose) :=
      if framing = .chunked ∨ framing = .http10 then
        let headers := setCommaHeader hs (bs "Content-Length") []
        if c.peerIsHttp10OrUnknown then
          (setCommaHeader headers (bs "Transfer-Encoding") [], true)
        else
          (setCommaHeader headers (bs "Transfer-Encoding") [bs "chunked"], false)
      else (hs, false)
    let headers :=
      if !c.cstate.keepAlive ∨ needClose then
        setCommaHeader headers (bs "Connection") (closeConnVals headers)
      else headers
    .ok (.response code headers ver)
  | _ => .error (.assertionError "type(response) is Response")

/-- The body of `send_with_data_passthrough` inside its `try`: clean up a
`Response`, snapshot the writer, drive the state machine, and serialize with
the snapshot writer (whose updated state is kept only when our state did not
change, mirroring the in-place mutation of the Python writer object). -/
def Conn.sendAttempt (c : Conn) (e : Event) :
    Except (HErr × Conn) (Option (List Bytes) × Conn) :=
  match (if e.etype = .response then c.cleanUpResponseHeadersForSending e
         else .ok e : Except HErr Event) with
  | .error err => .error (err, c)
  | .ok e =>
    let preOurState := c.ourState
    let writer := c.writer
    match c.processEvent c.ourRole e with
    | .error ec => .error ec
    | .ok c =>
      if e.etype = .connectionClosed then
        .ok (none, c)
      else
        match writer with
        | none => .error (.assertionError "writer is not None", c)
        | some w =>
          match runWriter w e with
          | .error err => .error (err, c)
          | .ok (out, w') =>
            .ok (some out,
                 if c.ourState = preOurState then { c with writer := some w' } else c)

/-- `send_with_data_passthrough(event)` from `_connection.py`: refuse when
our state is already `ERROR`; on any exception from within the body,
`our_role` is moved to `ERROR` before the error is returned.  A successful
`ConnectionClosed` send returns `none` instead of byte slices. -/
def Conn.sendWithDataPassthrough (c : Conn) (e : Event) :
    Except HErr (Option (List Bytes)) × Conn :=
  if c.ourState = .error then
    (.error (.protocolError "Cannot send data when our state is ERROR" none), c)
  else
    match c.sendAttempt e with
    | .ok (out, c') => (.ok out, c')
    | .error (err, c') => (.error err, c'.processError c'.ourRole)

/-- `send(event)` from `_connection.py`: like `send_with_data_passthrough`
but with the byte slices joined into one byte string. -/
def Conn.send (c : Conn) (e : Event) : Except HErr (Option Bytes) × Conn :=
  match c.sendWithDataPassthrough e with
  | (.ok none, c') => (.ok none, c')
  | (.ok (some parts), c') => (.ok (some parts.flatten), c')
  | (.error err, c') => (.error err, c')

/-- The step-1 short circuit of `_body_framing`: responses that always have
an empty body regardless of their headers (status 204 or 304, a response to
HEAD, or a 2xx response to CONNECT). -/
def emptyBodyShortCircuit (m : Option Bytes) (e : Event) : Bool :=
  match e with
  | .response code _ _ =>
    code = 204 ∨ code = 304 ∨ m = some (bs "HEAD")
      ∨ (m = some (bs "CONNECT") ∧ 200 ≤ code ∧ code < 300)
  | _ => false

/-- Whether an event is a `Request` or a `Response`. -/
def isReqOrResp (e : Event) : Bool :=
  e.etype = .request ∨ e.etype = .response

/-- Whether an `Except` value is a success. -/
def isOkE : Except α β → Bool
  | .ok _ => true
  | .error _ => false

/-- A server connection that has read a HEAD request from its peer and is
about to respond (used to exercise the Transfer-Encoding checks). -/
def headServerConn : Conn :=
  { ourRole := .server
    maxBufferSize := HTTP_DEFAULT_MAX_BUFFER_SIZE
    cstate := { client := .done, server := .sendResponse, keepAlive := true, pending := [] }
    reader := some .expectNothing
    writer := some .responseW
    receiveBuffer := []
    receiveBufferClosed := false
    theirHttpVersion := some (bs "1.1")
    requestMethod := some (bs "HEAD")
    clientWaiting100 := false }

/-- A connection with both roles in `DONE` while the 100-continue wait flag
is (unreachably) still set, exercising the `prepare_to_reuse` assertion. -/
def doneWaitingConn : Conn :=
  { ourRole := .client
    maxBufferSize := HTTP_DEFAULT_MAX_BUFFER_SIZE
    cstate := { client := .done, server := .done, keepAlive := true, pending := [] }
    reader := some .expectNothing
    writer := none
    receiveBuffer := []
    receiveBufferClosed := false
    theirHttpVersion := some (bs "1.1")
    requestMethod := some (bs "GET")
    clientWaiting100 := true }

/- ------------------------------------------------------------------ -/
/- Theorems                                                            -/
/- ------------------------------------------------------------------ -/

/-- The state-triggered transitions never touch the keep-alive latch. -/
@[simp] theorem fire_keepAlive (s : CState) : s.fire.keepAlive = s.keepAlive := by
  unfold CState.fire
  dsimp only
  repeat' split
  all_goals rfl

/-- Replacing a role state never touches the keep-alive latch. -/
@[simp] theorem setState_keepAlive (s : CState) (role : Role) (st : RState) :
    (s.setState role st).keepAlive = s.keepAlive := by
  cases role <;> rfl

/-- Recording client switch proposals never touches the keep-alive latch. -/
@[simp] theorem processClientSwitchProposals_keepAlive (s : CState) (ps : List Switch) :
    (s.processClientSwitchProposals ps).keepAlive = s.keepAlive := by
  unfold CState.processClientSwitchProposals
  simp

/-- Disabling keep-alive latches the flag to false. -/
@[simp] theorem processKeepAliveDisabled_keepAlive (s : CState) :
    s.processKeepAliveDisabled.keepAlive = false := by
  unfold CState.processKeepAliveDisabled
  simp

/-- The state-machine event transitions never touch the keep-alive latch. -/
theorem processEventCS_keepAlive {s s' : CState} {role : Role} {t : EType}
    {sw : Option Switch} (h : s.processEvent role t sw = .ok s') :
    s'.keepAlive = s.keepAlive := by
  unfold CState.processEvent at h
  repeat' (first | (dsimp only at h) | (split at h))
  all_goals cases h
  all_goals simp_all [fire_keepAlive, setState_keepAlive, apply_ite CState.keepAlive]

/-- The writer-refresh step of `_respond_to_state_changes` only touches the
writer. -/
theorem respondStep1_shape {c c1 : Conn} {old : RState × RState} {e : Option Event}
    (h : (if c.ourState ≠ pickOld old c.ourRole then
        match c.getWriterObj c.ourRole e with
        | .error er => .error (er, c)
        | .ok w => .ok { c with writer := w }
      else .ok c : Except (HErr × Conn) Conn) = .ok c1) :
    c1 = { c with writer := c1.writer } := by
  split at h
  · split at h
    · cases h
    · cases h; rfl
  · cases h; rfl

/-- `_respond_to_state_changes` only touches the io objects: every other
field of a successfully refreshed connection is unchanged. -/
theorem respond_ok_shape {c c' : Conn} {old : RState × RState} {e : Option Event}
    (h : c.respondToStateChanges old e = .ok c') :
    c' = { c with reader := c'.reader, writer := c'.writer } := by
  unfold Conn.respondToStateChanges at h
  split at h
  · cases h
  · rename_i c1 heq
    have h1 := respondStep1_shape heq
    split at h
    · split at h
      · cases h
      · cases h; rw [h1]
    · cases h; rw [h1]

/-- `_respond_to_state_changes` only touches the io objects, also in the
connection value carried by a raised exception. -/
theorem respond_err_shape {c c' : Conn} {old : RState × RState} {e : Option Event}
    {err : HErr} (h : c.respondToStateChanges old e = .error (err, c')) :
    c' = { c with reader := c'.reader, writer := c'.writer } := by
  unfold Conn.respondToStateChanges at h
  split at h
  · rename_i p heq
    cases h
    split at heq
    · split at heq
      · cases heq; rfl
      · cases heq
    · cases heq
  · rename_i c1 heq
    have h1 := respondStep1_shape heq
    split at h
    · split at h
      · cases h; rw [h1]
      · cases h
    · cases h

/-- Recording the request method does not touch the state machine. -/
@[simp] theorem recordRequestMethod_cstate (c : Conn) (e : Event) :
    (c.recordRequestMethod e).cstate = c.cstate := by
  cases e <;> rfl

/-- Recording the peer HTTP version does not touch the state machine. -/
@[simp] theorem recordTheirVersion_cstate (c : Conn) (role : Role) (e : Event) :
    (c.recordTheirVersion role e).cstate = c.cstate := by
  unfold Conn.recordTheirVersion
  split <;> rfl

/-- The 100-continue bookkeeping does not touch the state machine. -/
@[simp] theorem update100Continue_cstate (c : Conn) (role : Role) (e : Event) :
    (c.update100Continue role e).cstate = c.cstate := by
  unfold Conn.update100Continue
  dsimp only
  repeat' split
  all_goals rfl

/-- Recording switch proposals does not touch the keep-alive latch. -/
@[simp] theorem proposalStep_keepAlive (c : Conn) (role : Role) (e : Event) :
    (c.proposalStep role e).cstate.keepAlive = c.cstate.keepAlive := by
  unfold Conn.proposalStep
  split <;> simp

/-- The keep-alive latch step computes exactly the latch rule. -/
theorem applyKeepAliveLatch_keepAlive (c : Conn) (e : Event) :
    (c.applyKeepAliveLatch e).cstate.keepAlive
      = (c.cstate.keepAlive && (!(isReqOrResp e) || keepAliveEv e)) := by
  unfold Conn.applyKeepAliveLatch isReqOrResp
  split
  · rename_i hcond
    obtain ⟨h1, h2⟩ := hcond
    have h2' : keepAliveEv e = false := by
      revert h2; cases keepAliveEv e <;> simp
    show c.cstate.processKeepAliveDisabled.keepAlive = _
    simp [h1, h2']
  · rename_i hcond
    by_cases hd : e.etype = .request ∨ e.etype = .response
    · cases hk : keepAliveEv e with
      | false => exact absurd ⟨hd, by simp [hk]⟩ hcond
      | true => simp [hd, hk]
    · simp [hd]

/-- The pure metadata updates of `_process_event` change the keep-alive
latch exactly by the latch rule: it stays unless the event is a `Request` or
`Response` for which `_keep_alive` is false, in which case it is cleared. -/
theorem recordEventEffects_keepAlive (c : Conn) (role : Role) (e : Event) :
    (c.recordEventEffects role e).cstate.keepAlive
      = (c.cstate.keepAlive && (!(isReqOrResp e) || keepAliveEv e)) := by
  unfold Conn.recordEventEffects
  rw [update100Continue_cstate, applyKeepAliveLatch_keepAlive,
    recordTheirVersion_cstate, recordRequestMethod_cstate]

/-- `process_error` moves the given role to `ERROR`. -/
@[simp] theorem csProcessError_stateOf_self (s : CState) (role : Role) :
    (s.processError role).stateOf role = .error := by
  cases role <;> rfl

/-- `process_error` does not change the other role. -/
@[simp] theorem csProcessError_stateOf_other (s : CState) (role : Role) :
    (s.processError role).stateOf (otherRole role) = s.stateOf (otherRole role) := by
  cases role <;> rfl

/-- `_process_error` applies exactly `process_error` to the state machine. -/
theorem processError_cstate (c : Conn) (role : Role) :
    (c.processError role).cstate = c.cstate.processError role := by
  unfold Conn.processError
  dsimp only
  split
  · rename_i c' hr
    rw [respond_ok_shape hr]
  · rename_i p hr
    obtain ⟨err, c'⟩ := p
    rw [respond_err_shape hr]

/-- `_process_error` does not change which role we play. -/
theorem processError_ourRole (c : Conn) (role : Role) :
    (c.processError role).ourRole = c.ourRole := by
  unfold Conn.processError
  dsimp only
  split
  · rename_i c' hr
    rw [respond_ok_shape hr]
  · rename_i p hr
    obtain ⟨err, c'⟩ := p
    rw [respond_err_shape hr]

/-- `_process_error` on their role makes their state `ERROR`. -/
theorem processError_their (c : Conn) : (c.processError c.theirRole).theirState = .error := by
  show (c.processError c.theirRole).cstate.stateOf
      (otherRole (c.processError c.theirRole).ourRole) = .error
  rw [processError_ourRole, processError_cstate]
  exact csProcessError_stateOf_self c.cstate (otherRole c.ourRole)

/-- `_process_error` on our role makes our state `ERROR`. -/
theorem processError_our (c : Conn) : (c.processError c.ourRole).ourState = .error := by
  show (c.processError c.ourRole).cstate.stateOf (c.processError c.ourRole).ourRole = .error
  rw [processError_ourRole, processError_cstate]
  exact csProcessError_stateOf_self c.cstate c.ourRole

/-- C3: processing an event changes the keep-alive latch exactly by the
latch rule: after a successful `_process_event`, keep-alive holds iff it
held before and the event is not a `Request`/`Response` that disables it
(Connection header containing `close`, or HTTP version below 1.1); in
particular an `InformationalResponse` never affects the latch, and neither
does any non-`Request`/`Response` event. -/
theorem C3_keepAlive_latch {c c' : Conn} {role : Role} {e : Event}
    (h : c.processEvent role e = .ok c') :
    c'.cstate.keepAlive
      = (c.cstate.keepAlive && (!(isReqOrResp e) || keepAliveEv e))
    ∧ (isReqOrResp e = false → c'.cstate.keepAlive = c.cstate.keepAlive)
    ∧ (e.etype = .informationalResponse → c'.cstate.keepAlive = c.cstate.keepAlive) := by
  have main : c'.cstate.keepAlive
      = (c.cstate.keepAlive && (!(isReqOrResp e) || keepAliveEv e)) := by
    unfold Conn.processEvent at h
    dsimp only at h
    split at h
    · cases h
    · rename_i cs hcs
      have h1 := processEventCS_keepAlive hcs
      have h2 := respond_ok_shape h
      have h3 : c'.cstate
          = (Conn.recordEventEffects
              { c.proposalStep role e with cstate := cs } role e).cstate := by
        rw [h2]
      rw [h3, recordEventEffects_keepAlive]
      have hcs' : ({ c.proposalStep role e with cstate := cs } : Conn).cstate = cs := rfl
      rw [hcs', h1, proposalStep_keepAlive]
  refine ⟨main, fun hf => ?_, fun hinf => ?_⟩
  · rw [main, hf]; simp
  · rw [main]
    have : isReqOrResp e = false := by
      unfold isReqOrResp
      rw [hinf]; decide
    rw [this]; simp

/-- C3 (witness): the latch theorem applied to a concrete connection: a
fresh client connection sending a request whose Connection header is `close`
ends with keep-alive latched to false. -/
theorem C3_keepAlive_latch_witness :
    ((mkConnection .client HTTP_DEFAULT_MAX_BUFFER_SIZE).processEvent .client
        (.request (bs "GET") (bs "/") [(bs "Connection", bs "close")] (bs "1.1"))).map
      (fun c' => c'.cstate.keepAlive) = .ok false := by
  have h : ((mkConnection .client HTTP_DEFAULT_MAX_BUFFER_SIZE).processEvent .client
      (.request (bs "GET") (bs "/") [(bs "Connection", bs "close")] (bs "1.1")))
      = .ok (((mkConnection .client HTTP_DEFAULT_MAX_BUFFER_SIZE).processEvent .client
          (.request (bs "GET") (bs "/") [(bs "Connection", bs "close")] (bs "1.1"))).toOption.get
            (by rfl)) := by rfl
  rw [h]
  have := (C3_keepAlive_latch h).1
  simp only [Except.map]
  rw [this]
  rfl

/-- C1 (counterexample): the body-framing decision does not reject multiple
conflicting Content-Length values: with values 5 and 7 present it silently
uses the first one. -/
theorem C1_counterexample :
    bodyFraming (some (bs "GET"))
      (.request (bs "GET") (bs "/")
        [(bs "Content-Length", bs "5"), (bs "Content-Length", bs "7")] (bs "1.1"))
      = .ok (.contentLength 5)
    ∧ getCommaHeader
        [(bs "Content-Length", bs "5"), (bs "Content-Length", bs "7")]
        (bs "Content-Length") = [bs "5", bs "7"] := by
  exact ⟨rfl, by decide⟩

/-- C1 (amended): the body-framing decision returns content-length 0 for a
Response with status 204/304, after HEAD, or 2xx after CONNECT; otherwise
chunked framing when the Transfer-Encoding comma-list is exactly `chunked`
(any other non-empty value fails); otherwise, when Content-Length values are
present, content-length with the integer parsed from the first value —
conflicting additional values are not rejected; otherwise content-length 0
for a Request and http/1.0 framing for a Response. -/
theorem C1_bodyFraming_decision (m : Option Bytes) (e : Event)
    (te : List Bytes) (cl : List Bytes)
    (hte : te = getCommaHeader e.headersOf (bs "Transfer-Encoding"))
    (hcl : cl = getCommaHeader e.headersOf (bs "Content-Length")) :
    (emptyBodyShortCircuit m e = true → bodyFraming m e = .ok (.contentLength 0))
    ∧ (isReqOrResp e = true → emptyBodyShortCircuit m e = false →
        (e.etype = .response → ∀ code hs v, e = .response code hs v → 200 ≤ code) →
        ((te = [bs "chunked"] → bodyFraming m e = .ok .chunked)
          ∧ (te ≠ [] → te ≠ [bs "chunked"] →
              bodyFraming m e
                = .error (.assertionError "transfer_encodings == [b\x22chunked\x22]"))
          ∧ (te = [] → ∀ v rest, cl = v :: rest →
              bodyFraming m e = (pyIntParse v).map .contentLength)
          ∧ (te = [] → cl = [] → e.etype = .request →
              bodyFraming m e = .ok (.contentLength 0))
          ∧ (te = [] → cl = [] → e.etype = .response →
              bodyFraming m e = .ok .http10))) := by
  subst hte hcl
  match e with
  | .request mth tgt hs v =>
    refine ⟨by simp [emptyBodyShortCircuit], fun _ _ _ => ?_⟩
    have hred : bodyFraming m (.request mth tgt hs v)
        = bodyFraming.bodyFramingHeaders true hs := by
      simp only [bodyFraming]
    refine ⟨?_, ?_, ?_, ?_, ?_⟩ <;> rw [hred] <;>
      simp only [bodyFraming.bodyFramingHeaders, Event.headersOf, Event.etype]
    · intro h; simp [h]
    · intro h1 h2; simp [h1, h2]
    · intro h v' rest hcl'; simp [h, hcl']
    · intro h hcl' _; simp [h, hcl']
    · intro _ _ h; simp [Event.etype] at h
  | .response code hs v =>
    constructor
    · intro hsc
      replace hsc := of_decide_eq_true (by simpa [emptyBodyShortCircuit] using hsc)
      simp [bodyFraming, hsc]
    · intro _ hsc hge
      have hge' : 200 ≤ code := hge (by simp [Event.etype]) code hs v rfl
      have hns : ¬(code = 204 ∨ code = 304 ∨ m = some (bs "HEAD")
          ∨ (m = some (bs "CONNECT") ∧ 200 ≤ code ∧ code < 300)) :=
        of_decide_eq_false (by simpa [emptyBodyShortCircuit] using hsc)
      have hred : bodyFraming m (.response code hs v)
          = bodyFraming.bodyFramingHeaders false hs := by
        simp only [bodyFraming]
        rw [if_neg hns, if_neg (by omega)]
      refine ⟨?_, ?_, ?_, ?_, ?_⟩ <;> rw [hred] <;>
        simp only [bodyFraming.bodyFramingHeaders, Event.headersOf, Event.etype]
      · intro h; simp [h]
      · intro h1 h2; simp [h1, h2]
      · intro h v' rest hcl'; simp [h, hcl']
      · intro _ _ h; simp [Event.etype] at h
      · intro h hcl' _; simp [h, hcl']
  | .informationalResponse _ _ _ => simp [emptyBodyShortCircuit, isReqOrResp, Event.etype]
  | .data _ => simp [emptyBodyShortCircuit, isReqOrResp, Event.etype]
  | .endOfMessage _ => simp [emptyBodyShortCircuit, isReqOrResp, Event.etype]
  | .connectionClosed => simp [emptyBodyShortCircuit, isReqOrResp, Event.etype]
  | .paused _ => simp [emptyBodyShortCircuit, isReqOrResp, Event.etype]

/-- C1 (witness): the amended decision theorem applied at concrete inputs:
a 204 response takes the short circuit, and a request carrying
`Transfer-Encoding: chunked` gets chunked framing. -/
theorem C1_bodyFraming_decision_witness :
    bodyFraming (some (bs "GET")) (.response 204 [] (bs "1.1")) = .ok (.contentLength 0)
    ∧ bodyFraming none
        (.request (bs "PUT") (bs "/") [(bs "Transfer-Encoding", bs "chunked")] (bs "1.1"))
        = .ok .chunked := by
  constructor
  · exact (C1_bodyFraming_decision (some (bs "GET")) (.response 204 [] (bs "1.1"))
      _ _ rfl rfl).1 (by decide)
  · exact ((C1_bodyFraming_decision none
      (.request (bs "PUT") (bs "/") [(bs "Transfer-Encoding", bs "chunked")] (bs "1.1"))
      _ _ rfl rfl).2 (by decide) (by decide) (by intro h; simp [Event.etype] at h)).1
      (by decide)

/-- C10: once `receive_data(b\x22\x22)` has recorded end-of-file, a later
`receive_data` call with non-empty bytes raises RuntimeError — not the
protocol-error kind — and their state nevertheless transitions to ERROR
before the exception propagates. -/
theorem C10_data_after_close {c : Conn} {d : Bytes} {fuel : Nat}
    (hne : c.theirState ≠ .error) (hclosed : c.receiveBufferClosed = true)
    (hd : d ≠ []) :
    c.receiveData (some d) fuel
      = (.error (.runtimeError "received close, then received more data?"),
         c.processError c.theirRole)
    ∧ (c.processError c.theirRole).theirState = .error := by
  constructor
  · unfold Conn.receiveData Conn.updateBufferStep
    rw [if_neg hne]
    simp [hd, hclosed]
  · exact processError_their c

/-- C10 (witness): the theorem applied to a server connection whose receive
buffer is already marked closed, fed one further byte. -/
theorem C10_data_after_close_witness :
    ({ mkConnection .server HTTP_DEFAULT_MAX_BUFFER_SIZE with receiveBufferClosed := true } : Conn).receiveData
        (some (bs "x")) 1
      = (.error (.runtimeError "received close, then received more data?"),
         ({ mkConnection .server HTTP_DEFAULT_MAX_BUFFER_SIZE with receiveBufferClosed := true } : Conn).processError .client)
    ∧ (({ mkConnection .server HTTP_DEFAULT_MAX_BUFFER_SIZE with receiveBufferClosed := true } : Conn).processError
        .client).theirState = .error :=
  C10_data_after_close (by decide) rfl (by decide)

/-- C5: every error return of `receive_data` leaves their state `ERROR`, and
every error return of `send_with_data_passthrough` leaves our state `ERROR`;
calling `receive_data` while their state is already `ERROR`, or sending
while our state is already `ERROR`, fails immediately with a protocol error
and changes nothing; and `process_error` only touches the offending role,
leaving the other role state untouched. -/
theorem C5_error_propagation :
    (∀ (c : Conn) (data : Option Bytes) (fuel : Nat) (e : HErr) (c' : Conn),
        c.receiveData data fuel = (.error e, c') → c'.theirState = .error)
    ∧ (∀ (c : Conn) (ev : Event) (e : HErr) (c' : Conn),
        c.sendWithDataPassthrough ev = (.error e, c') → c'.ourState = .error)
    ∧ (∀ (c : Conn) (data : Option Bytes) (fuel : Nat), c.theirState = .error →
        c.receiveData data fuel
          = (.error (.protocolError "Cannot receive data when peer state is ERROR" none), c))
    ∧ (∀ (c : Conn) (ev : Event), c.ourState = .error →
        c.sendWithDataPassthrough ev
          = (.error (.protocolError "Cannot send data when our state is ERROR" none), c))
    ∧ (∀ (c : Conn) (role : Role),
        (c.processError role).stateOf role = .error
        ∧ (c.processError role).stateOf (otherRole role) = c.stateOf (otherRole role)) := by
  refine ⟨?_, ?_, ?_, ?_, ?_⟩
  · intro c data fuel e c' h
    unfold Conn.receiveData at h
    split at h
    · rename_i herr
      injection h with h1 h2
      rw [← h2]; exact herr
    · split at h
      · injection h with h1 h2; rw [← h2]; exact processError_their _
      · split at h
        · injection h with h1 h2; rw [← h2]; exact processError_their _
        · split at h
          · injection h with h1 h2; rw [← h2]; exact processError_their _
          · injection h with h1 h2; cases h1
  · intro c ev e c' h
    unfold Conn.sendWithDataPassthrough at h
    split at h
    · rename_i herr
      injection h with h1 h2
      rw [← h2]; exact herr
    · split at h
      · injection h with h1 h2; cases h1
      · injection h with h1 h2; rw [← h2]; exact processError_our _
  · intro c data fuel herr
    unfold Conn.receiveData
    rw [if_pos herr]
  · intro c ev herr
    unfold Conn.sendWithDataPassthrough
    rw [if_pos herr]
  · intro c role
    constructor
    · show (c.processError role).cstate.stateOf role = .error
      rw [processError_cstate]
      exact csProcessError_stateOf_self c.cstate role
    · show (c.processError role).cstate.stateOf (otherRole role)
        = c.cstate.stateOf (otherRole role)
      rw [processError_cstate]
      exact csProcessError_stateOf_other c.cstate role

/-- C5 (witness): the propagation theorem applied at concrete inputs: a
client connection whose peer is already in `ERROR` refuses `receive_data`,
and one whose own role is in `ERROR` refuses sending. -/
theorem C5_error_propagation_witness :
    ({ mkConnection .client HTTP_DEFAULT_MAX_BUFFER_SIZE with
        cstate := { CState.initial with server := .error } } : Conn).receiveData none 1
      = (.error (.protocolError "Cannot receive data when peer state is ERROR" none),
         { mkConnection .client HTTP_DEFAULT_MAX_BUFFER_SIZE with cstate := { CState.initial with server := .error } })
    ∧ ({ mkConnection .client HTTP_DEFAULT_MAX_BUFFER_SIZE with
        cstate := { CState.initial with client := .error } } : Conn).sendWithDataPassthrough
          .connectionClosed
      = (.error (.protocolError "Cannot send data when our state is ERROR" none),
         { mkConnection .client HTTP_DEFAULT_MAX_BUFFER_SIZE with cstate := { CState.initial with client := .error } }) :=
  ⟨C5_error_propagation.2.2.1 _ none 1 rfl,
   C5_error_propagation.2.2.2.1 _ .connectionClosed rfl⟩

/-- The proposal step only touches the state machine: the cap is kept. -/
@[simp] theorem proposalStep_maxBuffer (c : Conn) (role : Role) (e : Event) :
    (c.proposalStep role e).maxBufferSize = c.maxBufferSize := by
  unfold Conn.proposalStep
  split <;> rfl

/-- The proposal step only touches the state machine: the role is kept. -/
@[simp] theorem proposalStep_ourRole (c : Conn) (role : Role) (e : Event) :
    (c.proposalStep role e).ourRole = c.ourRole := by
  unfold Conn.proposalStep
  split <;> rfl

/-- Recording the request method keeps the buffer-size cap. -/
@[simp] theorem recordRequestMethod_maxBuffer (c : Conn) (e : Event) :
    (c.recordRequestMethod e).maxBufferSize = c.maxBufferSize := by
  cases e <;> rfl

/-- Recording the request method keeps the role. -/
@[simp] theorem recordRequestMethod_ourRole (c : Conn) (e : Event) :
    (c.recordRequestMethod e).ourRole = c.ourRole := by
  cases e <;> rfl

/-- Recording the peer version keeps the buffer-size cap. -/
@[simp] theorem recordTheirVersion_maxBuffer (c : Conn) (role : Role) (e : Event) :
    (c.recordTheirVersion role e).maxBufferSize = c.maxBufferSize := by
  unfold Conn.recordTheirVersion
  split <;> rfl

/-- Recording the peer version keeps the role. -/
@[simp] theorem recordTheirVersion_ourRole (c : Conn) (role : Role) (e : Event) :
    (c.recordTheirVersion role e).ourRole = c.ourRole := by
  unfold Conn.recordTheirVersion
  split <;> rfl

/-- The keep-alive latch keeps the buffer-size cap. -/
@[simp] theorem applyKeepAliveLatch_maxBuffer (c : Conn) (e : Event) :
    (c.applyKeepAliveLatch e).maxBufferSize = c.maxBufferSize := by
  unfold Conn.applyKeepAliveLatch
  split <;> rfl

/-- The keep-alive latch keeps the role. -/
@[simp] theorem applyKeepAliveLatch_ourRole (c : Conn) (e : Event) :
    (c.applyKeepAliveLatch e).ourRole = c.ourRole := by
  unfold Conn.applyKeepAliveLatch
  split <;> rfl

/-- The 100-continue bookkeeping keeps the buffer-size cap. -/
@[simp] theorem update100Continue_maxBuffer (c : Conn) (role : Role) (e : Event) :
    (c.update100Continue role e).maxBufferSize = c.maxBufferSize := by
  unfold Conn.update100Continue
  dsimp only
  repeat' split
  all_goals rfl

/-- The 100-continue bookkeeping keeps the role. -/
@[simp] theorem update100Continue_ourRole (c : Conn) (role : Role) (e : Event) :
    (c.update100Continue role e).ourRole = c.ourRole := by
  unfold Conn.update100Continue
  dsimp only
  repeat' split
  all_goals rfl

/-- `_process_event` never changes the role we play or the buffer-size
cap. -/
theorem processEvent_const {c c' : Conn} {role : Role} {e : Event}
    (h : c.processEvent role e = .ok c') :
    c'.maxBufferSize = c.maxBufferSize ∧ c'.ourRole = c.ourRole := by
  unfold Conn.processEvent at h
  dsimp only at h
  split at h
  · cases h
  · rename_i cs hcs
    rw [respond_ok_shape h]
    unfold Conn.recordEventEffects
    constructor
    · show (_ : Conn).maxBufferSize = _
      simp
    · show (_ : Conn).ourRole = _
      simp

/-- `_next_receive_event` only touches the receive buffer and the reader. -/
theorem nextReceiveEvent_shape {c c' : Conn} {oev : Option Event}
    (h : c.nextReceiveEvent = .ok (oev, c')) :
    c' = { c with receiveBuffer := c'.receiveBuffer, reader := c'.reader } := by
  unfold Conn.nextReceiveEvent at h
  repeat' (first | (dsimp only at h) | (split at h))
  all_goals cases h
  all_goals rfl

/-- The receive loop never changes the role we play or the buffer-size
cap. -/
theorem receiveLoop_const {fuel : Nat} {c c' : Conn} {acc evs : List Event}
    (h : Conn.receiveLoop fuel c acc = .ok (evs, c')) :
    c'.maxBufferSize = c.maxBufferSize ∧ c'.ourRole = c.ourRole := by
  induction fuel generalizing c acc with
  | zero => cases h
  | succ n ih =>
    unfold Conn.receiveLoop at h
    split at h
    · cases h
    · rename_i c1 hnext
      obtain h1 := nextReceiveEvent_shape hnext
      cases h
      rw [h1]
      exact ⟨rfl, rfl⟩
    · rename_i ev c1 hnext
      obtain h1 := nextReceiveEvent_shape hnext
      dsimp only at h
      split at h
      · cases h
        rw [h1]
        exact ⟨rfl, rfl⟩
      · split at h
        · cases h
        · rename_i c2 hproc
          obtain ⟨hm2, hr2⟩ := processEvent_const hproc
          split at h
          · cases h
            rw [hm2, hr2, h1]
            exact ⟨rfl, rfl⟩
          · obtain ⟨hm3, hr3⟩ := ih h
            rw [hm3, hr3, hm2, hr2, h1]
            exact ⟨rfl, rfl⟩

/-- A list whose last element is `Paused` is non-empty. -/
theorem lastIsPaused_ne_nil {evs : List Event} (h : lastIsPaused evs = true) :
    evs ≠ [] := by
  intro hn
  rw [hn] at h
  simp [lastIsPaused] at h

/-- A list whose last element is `Paused` ends in a final event. -/
theorem lastIsPaused_final {evs : List Event} (h : lastIsPaused evs = true) :
    lastIsFinal evs = true := by
  unfold lastIsPaused at h
  unfold lastIsFinal
  split at h
  · rename_i hl
    rw [hl]
  · cases h

/-- A successful epilogue returns the events and connection unchanged, and
certifies the buffer bound whenever the final event is not `Paused`. -/
theorem postChecks_ok_bound {c c' : Conn} {evs evs' : List Event}
    (h : c.postChecks evs = .ok (evs', c')) :
    evs' = evs ∧ c' = c
    ∧ (lastIsPaused evs = false → c.receiveBuffer.length ≤ c.maxBufferSize) := by
  unfold Conn.postChecks Conn.closedCheck at h
  repeat' split at h
  all_goals cases h
  all_goals refine ⟨rfl, rfl, fun hf => ?_⟩
  all_goals first | omega | simp_all

/-- C4: after a `receive_data` call that returns normally with a final event
other than `Paused`, at most `max_buffer_size` unparsed bytes remain
buffered; when more than `max_buffer_size` bytes remain after the parse loop
and the final event is not `Paused`, `receive_data` raises the protocol
error with hint status 431; and when the final event is `Paused` the cap is
not enforced: the call returns normally whatever the buffer holds. -/
theorem C4_buffer_cap :
    (∀ (c c' : Conn) (data : Option Bytes) (fuel : Nat) (evs : List Event),
        c.receiveData data fuel = (.ok evs, c') → lastIsPaused evs = false →
        c'.receiveBuffer.length ≤ c.maxBufferSize)
    ∧ (∀ (c c0 c1 : Conn) (data : Option Bytes) (fuel : Nat) (evs : List Event),
        c.theirState ≠ .error →
        c.updateBufferStep data = .ok c0 →
        Conn.receiveLoop fuel c0 [] = .ok (evs, c1) →
        lastIsPaused evs = false →
        c1.receiveBuffer.length > c1.maxBufferSize →
        c.receiveData data fuel
          = (.error (.protocolError "Receive buffer too long" (some 431)),
             c1.processError c1.theirRole))
    ∧ (∀ (c c0 c1 : Conn) (data : Option Bytes) (fuel : Nat) (evs : List Event),
        c.theirState ≠ .error →
        c.updateBufferStep data = .ok c0 →
        Conn.receiveLoop fuel c0 [] = .ok (evs, c1) →
        lastIsPaused evs = true →
        c.receiveData data fuel = (.ok evs, c1)) := by
  refine ⟨?_, ?_, ?_⟩
  · intro c c' data fuel evs h hlp
    unfold Conn.receiveData at h
    split at h
    · cases h
    · split at h
      · cases h
      · rename_i c0 hup
        split at h
        · cases h
        · rename_i p c1 hloop
          obtain ⟨hmax, _⟩ := receiveLoop_const hloop
          have hmax0 : c0.maxBufferSize = c.maxBufferSize := by
            unfold Conn.updateBufferStep at hup
            repeat' split at hup
            all_goals cases hup
            all_goals rfl
          split at h
          · cases h
          · rename_i evs' c2 hpost
            injection h with h1 h2
            obtain ⟨he, hc, hb⟩ := postChecks_ok_bound hpost
            have hpe : p = evs := by
              rw [← he]
              injection h1
            rw [← h2, hc]
            have := hb (by rw [hpe]; exact hlp)
            rw [hmax, hmax0] at this
            exact this
  · intro c c0 c1 data fuel evs hne hup hloop hlp hgt
    unfold Conn.receiveData
    rw [if_neg hne, hup]
    dsimp only
    rw [hloop]
    dsimp only
    unfold Conn.postChecks
    rw [if_neg (by simp [hlp]), if_pos hgt]
  · intro c c0 c1 data fuel evs hne hup hloop hlp
    unfold Conn.receiveData
    rw [if_neg hne, hup]
    dsimp only
    rw [hloop]
    dsimp only
    unfold Conn.postChecks
    rw [if_pos ⟨lastIsPaused_ne_nil hlp, hlp⟩]
    have hcc : c1.closedCheck evs = .ok (evs, c1) := by
      unfold Conn.closedCheck
      split
      · rw [if_neg (by simp [lastIsPaused_ne_nil hlp, lastIsPaused_final hlp])]
      · rfl
    rw [hcc]

/-- C4 (witness): the cap theorem applied at concrete inputs: a fresh server
connection with a 10-byte cap fed 26 bytes that do not complete a request
fails with the 431 protocol error, and a connection paused in
`SWITCHED_PROTOCOL` accepts the same bytes without any cap. -/
theorem C4_buffer_cap_witness :
    ((mkConnection .server 10).receiveData
        (some (bs "GET / HTTP/1.1\r\nHost: aaaa")) 2).1
      = .error (.protocolError "Receive buffer too long" (some 431))
    ∧ (({ mkConnection .server 10 with
          cstate := { CState.initial with
                      client := .switchedProtocol,
                      server := .switchedProtocol } } : Conn).receiveData
        (some (bs "GET / HTTP/1.1\r\nHost: aaaa")) 2).1
      = .ok [.paused .switchedProtocol] := by
  constructor
  · have h := C4_buffer_cap.2.1 (mkConnection .server 10)
      ({ mkConnection .server 10 with
          receiveBuffer := bs "GET / HTTP/1.1\r\nHost: aaaa" })
      ({ mkConnection .server 10 with
          receiveBuffer := bs "GET / HTTP/1.1\r\nHost: aaaa" })
      (some (bs "GET / HTTP/1.1\r\nHost: aaaa")) 2 []
      (by decide) (by rfl) (by rfl) (by rfl) (by decide)
    rw [h]
  · have h := C4_buffer_cap.2.2
      ({ mkConnection .server 10 with
          cstate := { CState.initial with
                      client := .switchedProtocol,
                      server := .switchedProtocol } })
      ({ mkConnection .server 10 with
          cstate := { CState.initial with
                      client := .switchedProtocol,
                      server := .switchedProtocol },
          receiveBuffer := bs "GET / HTTP/1.1\r\nHost: aaaa" })
      ({ mkConnection .server 10 with
          cstate := { CState.initial with
                      client := .switchedProtocol,
                      server := .switchedProtocol },
          receiveBuffer := bs "GET / HTTP/1.1\r\nHost: aaaa" })
      (some (bs "GET / HTTP/1.1\r\nHost: aaaa")) 2 [.paused .switchedProtocol]
      (by decide) (by rfl) (by rfl) (by rfl)
    rw [h]

/-- A list that does not end in a final event does not end in `Paused`. -/
theorem lastIsFinal_false_paused {evs : List Event} (h : lastIsFinal evs = false) :
    lastIsPaused evs = false := by
  cases hp : lastIsPaused evs with
  | false => rfl
  | true => exact absurd (lastIsPaused_final hp) (by simp [h])

/-- C6: when the active reader produces no event, the (post-read) buffer is
empty, and the peer has half-closed, the next receive event is the reader
`read_eof()` result when the hook exists and `ConnectionClosed` otherwise;
only the HTTP/1.0 body reader has the hook, and it yields `EndOfMessage`;
and when at the end of a `receive_data` pass (that passed the buffer cap)
the peer has half-closed but the final event is neither `Paused` nor
`ConnectionClosed` — including the case of no events at all — the call
fails with a protocol error. -/
theorem C6_eof_fallback :
    (∀ (c : Conn) (r r' : ReaderSt) (buf : Bytes),
        ¬(c.theirState = .done ∧ c.receiveBuffer ≠ []) →
        ¬(c.theirState = .mightSwitchProtocol ∨ c.theirState = .switchedProtocol) →
        c.reader = some r →
        runReader r c.receiveBuffer = .ok (none, buf, r') →
        buf = [] →
        c.receiveBufferClosed = true →
        c.nextReceiveEvent
          = .ok (some (match readerReadEof r' with
                       | some ev => ev
                       | none => .connectionClosed),
                 { c with receiveBuffer := buf, reader := some r' }))
    ∧ readerReadEof .http10Body = some (.endOfMessage [])
    ∧ (∀ r : ReaderSt, r ≠ .http10Body → readerReadEof r = none)
    ∧ (∀ (c c0 c1 : Conn) (data : Option Bytes) (fuel : Nat) (evs : List Event),
        c.theirState ≠ .error →
        c.updateBufferStep data = .ok c0 →
        Conn.receiveLoop fuel c0 [] = .ok (evs, c1) →
        c1.receiveBuffer.length ≤ c1.maxBufferSize →
        c1.receiveBufferClosed = true →
        lastIsFinal evs = false →
        c.receiveData data fuel
          = (.error (.protocolError "peer unexpectedly closed connection" none),
             c1.processError c1.theirRole)) := by
  refine ⟨?_, rfl, ?_, ?_⟩
  · intro c r r' buf h1 h2 hr hrun hbuf hclosed
    unfold Conn.nextReceiveEvent
    rw [if_neg h1, if_neg h2, hr]
    dsimp only
    rw [hrun]
    dsimp only
    rw [if_pos ⟨by rw [hbuf], hclosed⟩]
    cases readerReadEof r' <;> rfl
  · intro r hr
    cases r <;> first | rfl | exact absurd rfl hr
  · intro c c0 c1 data fuel evs hne hup hloop hle hclosed hfin
    unfold Conn.receiveData
    rw [if_neg hne, hup]
    dsimp only
    rw [hloop]
    dsimp only
    unfold Conn.postChecks
    rw [if_neg (by simp [lastIsFinal_false_paused hfin])]
    rw [if_neg (by omega)]
    unfold Conn.closedCheck
    rw [if_pos hclosed, if_pos (by simp [hfin])]

/-- C6 (witness): the fallback theorem applied at concrete inputs: a client
reading an HTTP/1.0 body sees `EndOfMessage` from `read_eof()` when the
closed and drained buffer is reached, and a server whose peer closes after
an incomplete request line gets the unexpected-close protocol error. -/
theorem C6_eof_fallback_witness :
    ({ mkConnection .client HTTP_DEFAULT_MAX_BUFFER_SIZE with
        cstate := { CState.initial with client := .done, server := .sendBody },
        reader := some .http10Body,
        receiveBufferClosed := true } : Conn).nextReceiveEvent
      = .ok (some (.endOfMessage []),
             { mkConnection .client HTTP_DEFAULT_MAX_BUFFER_SIZE with
                cstate := { CState.initial with client := .done, server := .sendBody },
                reader := some .http10Body,
                receiveBufferClosed := true })
    ∧ ({ mkConnection .server HTTP_DEFAULT_MAX_BUFFER_SIZE with
          receiveBuffer := bs "GET /" } : Conn).receiveData (some []) 1
      = (.error (.protocolError "peer unexpectedly closed connection" none),
         ({ mkConnection .server HTTP_DEFAULT_MAX_BUFFER_SIZE with
            receiveBuffer := bs "GET /",
            receiveBufferClosed := true } : Conn).processError .client) := by
  constructor
  · have h := C6_eof_fallback.1
      ({ mkConnection .client HTTP_DEFAULT_MAX_BUFFER_SIZE with
          cstate := { CState.initial with client := .done, server := .sendBody },
          reader := some .http10Body,
          receiveBufferClosed := true })
      .http10Body .http10Body []
      (by decide) (by decide) rfl (by rfl) rfl rfl
    exact h
  · have h := C6_eof_fallback.2.2.2
      ({ mkConnection .server HTTP_DEFAULT_MAX_BUFFER_SIZE with
          receiveBuffer := bs "GET /" })
      ({ mkConnection .server HTTP_DEFAULT_MAX_BUFFER_SIZE with
          receiveBuffer := bs "GET /",
          receiveBufferClosed := true })
      ({ mkConnection .server HTTP_DEFAULT_MAX_BUFFER_SIZE with
          receiveBuffer := bs "GET /",
          receiveBufferClosed := true })
      (some []) 1 []
      (by decide) (by rfl) (by rfl) (by decide) rfl rfl
    exact h

/-- In the pause states (and in `DONE` with buffered data) the next receive
event is `Paused` and nothing changes. -/
theorem nextReceiveEvent_paused {c : Conn}
    (hst : c.theirState = .mightSwitchProtocol ∨ c.theirState = .switchedProtocol
         ∨ (c.theirState = .done ∧ c.receiveBuffer ≠ [])) :
    c.nextReceiveEvent = .ok (some (.paused c.theirState), c) := by
  unfold Conn.nextReceiveEvent
  rcases hst with h | h | ⟨h, hb⟩
  · rw [if_neg (by simp [h]), if_pos (Or.inl h)]
  · rw [if_neg (by simp [h]), if_pos (Or.inr h)]
  · rw [if_pos ⟨h, hb⟩]

/-- In the pause states the receive loop stops after the single `Paused`
pseudo-event, which is not put through the state machine. -/
theorem receiveLoop_paused {c : Conn} {n : Nat}
    (hst : c.theirState = .mightSwitchProtocol ∨ c.theirState = .switchedProtocol
         ∨ (c.theirState = .done ∧ c.receiveBuffer ≠ [])) :
    Conn.receiveLoop (n + 1) c [] = .ok ([.paused c.theirState], c) := by
  unfold Conn.receiveLoop
  rw [nextReceiveEvent_paused hst]
  dsimp only
  rw [if_pos (show (Event.paused c.theirState).etype = EType.paused from rfl)]
  rfl

/-- The epilogue accepts a single `Paused` event without any checks. -/
theorem postChecks_paused {c : Conn} {st : RState} :
    c.postChecks [.paused st] = .ok ([.paused st], c) := by
  unfold Conn.postChecks Conn.closedCheck
  rw [if_pos ⟨by simp, rfl⟩]
  split
  · rw [if_neg (by simp [lastIsFinal])]
  · rfl

/-- C7 (counterexample): a connection in `SWITCHED_PROTOCOL` whose receive
buffer has already been marked closed does not return `Paused` when fed one
further byte: the call raises RuntimeError instead. -/
theorem C7_counterexample :
    (({ mkConnection .client HTTP_DEFAULT_MAX_BUFFER_SIZE with
        cstate := { CState.initial with
                    client := .switchedProtocol,
                    server := .switchedProtocol },
        receiveBufferClosed := true } : Conn).receiveData (some (bs "x")) 1).1
      = .error (.runtimeError "received close, then received more data?") := by
  rfl

/-- C7 (amended): whenever their state is `MIGHT_SWITCH_PROTOCOL` or
`SWITCHED_PROTOCOL` (or `DONE` with data left over), a `receive_data(data)`
call — provided end-of-file has not already been recorded with further
non-empty data, which instead raises RuntimeError — appends `data` to the
receive buffer without parsing it and returns `Paused` carrying that state
as its only event, with no state-machine update; the accumulated bytes and
the closed flag are then exposed exactly by `trailing_data`. -/
theorem C7_paused_accumulation (c : Conn) (d : Bytes) (fuel : Nat)
    (hst : c.theirState = .mightSwitchProtocol ∨ c.theirState = .switchedProtocol
         ∨ (c.theirState = .done ∧ c.receiveBuffer ++ d ≠ []))
    (hnc : ¬(c.receiveBufferClosed = true ∧ d ≠ []))
    (hf : fuel ≠ 0) :
    (c.receiveData (some d) fuel).1 = .ok [.paused c.theirState]
    ∧ (c.receiveData (some d) fuel).2.trailingData
        = (c.receiveBuffer ++ d, c.receiveBufferClosed || (d = []))
    ∧ (c.receiveData (some d) fuel).2.cstate = c.cstate
    ∧ (c.receiveData (some d) fuel).2.reader = c.reader
    ∧ (c.receiveData (some d) fuel).2.writer = c.writer
    ∧ (c.receiveData (some d) fuel).2.requestMethod = c.requestMethod
    ∧ (c.receiveData (some d) fuel).2.theirHttpVersion = c.theirHttpVersion := by
  obtain ⟨n, rfl⟩ : ∃ n, fuel = n + 1 := by
    cases fuel with
    | zero => exact absurd rfl hf
    | succ n => exact ⟨n, rfl⟩
  have hne : c.theirState ≠ .error := by
    rcases hst with h | h | ⟨h, _⟩ <;> simp [h]
  have hmain : c.receiveData (some d) (n + 1)
      = (.ok [.paused c.theirState],
         if d = [] then { c with receiveBufferClosed := true }
         else { c with receiveBuffer := c.receiveBuffer ++ d }) := by
    unfold Conn.receiveData
    rw [if_neg hne]
    by_cases hd : d = []
    · subst hd
      have hupd : c.updateBufferStep (some [])
          = .ok { c with receiveBufferClosed := true } := by
        unfold Conn.updateBufferStep
        simp
      rw [hupd]
      dsimp only
      have hst' : ({ c with receiveBufferClosed := true } : Conn).theirState
            = .mightSwitchProtocol
          ∨ ({ c with receiveBufferClosed := true } : Conn).theirState
            = .switchedProtocol
          ∨ (({ c with receiveBufferClosed := true } : Conn).theirState = .done
             ∧ ({ c with receiveBufferClosed := true } : Conn).receiveBuffer ≠ []) := by
        rcases hst with h | h | ⟨h, hb⟩
        · exact Or.inl h
        · exact Or.inr (Or.inl h)
        · exact Or.inr (Or.inr ⟨h, by simpa using hb⟩)
      rw [receiveLoop_paused hst']
      dsimp only
      rw [postChecks_paused]
      rfl
    · have hcl : c.receiveBufferClosed = false := by
        cases hcl : c.receiveBufferClosed with
        | false => rfl
        | true => exact absurd ⟨hcl, hd⟩ hnc
      have hupd : c.updateBufferStep (some d)
          = .ok { c with receiveBuffer := c.receiveBuffer ++ d } := by
        unfold Conn.updateBufferStep
        simp [hd, hcl]
      rw [hupd]
      dsimp only
      have hst' : ({ c with receiveBuffer := c.receiveBuffer ++ d } : Conn).theirState
            = .mightSwitchProtocol
          ∨ ({ c with receiveBuffer := c.receiveBuffer ++ d } : Conn).theirState
            = .switchedProtocol
          ∨ (({ c with receiveBuffer := c.receiveBuffer ++ d } : Conn).theirState = .done
             ∧ ({ c with receiveBuffer := c.receiveBuffer ++ d } : Conn).receiveBuffer ≠ []) := by
        rcases hst with h | h | ⟨h, hb⟩
        · exact Or.inl h
        · exact Or.inr (Or.inl h)
        · exact Or.inr (Or.inr ⟨h, hb⟩)
      rw [receiveLoop_paused hst']
      dsimp only
      rw [postChecks_paused]
      rw [if_neg hd]
      rfl
  rw [hmain]
  by_cases hd : d = []
  · simp [hd, Conn.trailingData]
  · simp [hd, Conn.trailingData]

/-- C7 (witness): the amended theorem applied to a concrete switched
connection fed two bytes. -/
theorem C7_paused_accumulation_witness :
    (({ mkConnection .client HTTP_DEFAULT_MAX_BUFFER_SIZE with
        cstate := { CState.initial with
                    client := .switchedProtocol,
                    server := .switchedProtocol } } : Conn).receiveData
          (some (bs "ab")) 3).1
      = .ok [.paused .switchedProtocol]
    ∧ (({ mkConnection .client HTTP_DEFAULT_MAX_BUFFER_SIZE with
          cstate := { CState.initial with
                      client := .switchedProtocol,
                      server := .switchedProtocol } } : Conn).receiveData
          (some (bs "ab")) 3).2.trailingData
      = (bs "ab", false) := by
  have h := C7_paused_accumulation
    ({ mkConnection .client HTTP_DEFAULT_MAX_BUFFER_SIZE with
        cstate := { CState.initial with
                    client := .switchedProtocol,
                    server := .switchedProtocol } })
    (bs "ab") 3 (by decide) (by decide) (by decide)
  exact ⟨h.1, h.2.1⟩

/-- C8 (counterexample): sending a Response whose Transfer-Encoding is
`gzip` does not fail at all when the empty-body short circuit applies — here
the recorded request method is HEAD, so the send succeeds and serializes the
bogus header verbatim instead of raising a protocol error. -/
theorem C8_counterexample :
    (headServerConn.sendWithDataPassthrough
        (.response 200 [(bs "Transfer-Encoding", bs "gzip")] (bs "1.1"))).1
      = .ok (some [bs "HTTP/1.1 200 OK\r\nTransfer-Encoding: gzip\r\n\r\n"])
    ∧ (headServerConn.sendWithDataPassthrough
        (.response 200 [(bs "Transfer-Encoding", bs "gzip")] (bs "1.1"))).2.ourState
      = .sendBody := by
  exact ⟨rfl, rfl⟩

/-- C8 (amended): a Request or Response whose Transfer-Encoding comma-list
is non-empty and differs from exactly `chunked` makes the body-framing
decision fail with an assertion error — not the protocol-error kind — on
both the send and the receive path (both funnel through `_body_framing`),
except when the empty-body short circuit applies (Response with status
204/304, after HEAD, or 2xx after CONNECT), in which case the header is
ignored and no error is raised; a framing failure during response-header
cleanup is the error `send_with_data_passthrough` propagates. -/
theorem C8_transferEncoding_rejection :
    (∀ (m : Option Bytes) (e : Event), isReqOrResp e = true →
      emptyBodyShortCircuit m e = false →
      (∀ code hs v, e = .response code hs v → 200 ≤ code) →
      getCommaHeader e.headersOf (bs "Transfer-Encoding") ≠ [] →
      getCommaHeader e.headersOf (bs "Transfer-Encoding") ≠ [bs "chunked"] →
      bodyFraming m e = .error (.assertionError "transfer_encodings == [b\x22chunked\x22]"))
    ∧ (∀ (m : Option Bytes) (e : Event), emptyBodyShortCircuit m e = true →
        bodyFraming m e = .ok (.contentLength 0))
    ∧ (∀ (c : Conn) (e : Event) (err : HErr), c.ourState ≠ .error →
        e.etype = .response →
        c.cleanUpResponseHeadersForSending e = .error err →
        c.sendWithDataPassthrough e = (.error err, c.processError c.ourRole)) := by
  refine ⟨?_, ?_, ?_⟩
  · intro m e hrr hsc hge h1 h2
    match e, hrr with
    | .request mth tgt hs v, _ =>
      have : bodyFraming m (.request mth tgt hs v)
          = bodyFraming.bodyFramingHeaders true hs := by simp only [bodyFraming]
      rw [this]
      simp only [bodyFraming.bodyFramingHeaders, Event.headersOf] at h1 h2 ⊢
      simp [h1, h2]
    | .response code hs v, _ =>
      have hge' : 200 ≤ code := hge code hs v rfl
      have hns : ¬(code = 204 ∨ code = 304 ∨ m = some (bs "HEAD")
          ∨ (m = some (bs "CONNECT") ∧ 200 ≤ code ∧ code < 300)) :=
        of_decide_eq_false (by simpa [emptyBodyShortCircuit] using hsc)
      have : bodyFraming m (.response code hs v)
          = bodyFraming.bodyFramingHeaders false hs := by
        simp only [bodyFraming]
        rw [if_neg hns, if_neg (by omega)]
      rw [this]
      simp only [bodyFraming.bodyFramingHeaders, Event.headersOf] at h1 h2 ⊢
      simp [h1, h2]
  · intro m e hsc
    match e with
    | .response code hs v =>
      replace hsc := of_decide_eq_true (by simpa [emptyBodyShortCircuit] using hsc)
      simp [bodyFraming, hsc]
  · intro c e err hour hresp hclean
    match e, hresp with
    | .response code hs v, _ =>
      simp only [Conn.sendWithDataPassthrough, Conn.sendAttempt, if_neg hour,
        Event.etype, hclean]
      rfl

/-- C8 (witness): the amended theorem applied at concrete inputs: a PUT
request with `Transfer-Encoding: gzip` makes the framing decision fail with
the assertion error, and a server whose response-header cleanup hits that
assertion propagates it from `send_with_data_passthrough`. -/
theorem C8_transferEncoding_rejection_witness :
    bodyFraming none
        (.request (bs "PUT") (bs "/") [(bs "Transfer-Encoding", bs "gzip")] (bs "1.1"))
      = .error (.assertionError "transfer_encodings == [b\x22chunked\x22]")
    ∧ ({ headServerConn with requestMethod := some (bs "GET") }.sendWithDataPassthrough
        (.response 200 [(bs "Transfer-Encoding", bs "gzip")] (bs "1.1")))
      = (.error (.assertionError "transfer_encodings == [b\x22chunked\x22]"),
         ({ headServerConn with requestMethod := some (bs "GET") }).processError .server) := by
  constructor
  · exact C8_transferEncoding_rejection.1 none
      (.request (bs "PUT") (bs "/") [(bs "Transfer-Encoding", bs "gzip")] (bs "1.1"))
      (by decide) (by decide) (by intro code hs v h; cases h) (by decide) (by decide)
  · exact C8_transferEncoding_rejection.2.2
      { headServerConn with requestMethod := some (bs "GET") }
      (.response 200 [(bs "Transfer-Encoding", bs "gzip")] (bs "1.1"))
      (.assertionError "transfer_encodings == [b\x22chunked\x22]")
      (by decide) (by decide) (by rfl)

/-- C9 (counterexample): with both roles in `DONE`, keep-alive enabled, but
the 100-continue wait flag still set, `prepare_to_reuse` fails with an
assertion error — not the protocol-error kind — and the connection state has
already been mutated when the exception propagates: the roles are reset to
`IDLE` and the request method is cleared, so the state is not left as it
was. -/
theorem C9_counterexample :
    (doneWaitingConn.prepareToReuse).1
      = .error (.assertionError "not self.client_is_waiting_for_100_continue")
    ∧ (doneWaitingConn.prepareToReuse).2.cstate.client = .idle
    ∧ (doneWaitingConn.prepareToReuse).2.cstate.server = .idle
    ∧ (doneWaitingConn.prepareToReuse).2.requestMethod = none
    ∧ doneWaitingConn.cstate.client = .done
    ∧ doneWaitingConn.requestMethod = some (bs "GET") := by
  exact ⟨rfl, rfl, rfl, rfl, rfl, rfl⟩

/-- C9 (amended): `prepare_to_reuse` succeeds exactly when both roles are in
`DONE`, keep-alive is enabled, and no 100-continue wait is outstanding; on
success both roles are reset to `IDLE`, the request method is cleared, and
the peer HTTP version (with the rest of the connection-scoped state) is
preserved.  When the roles are not both `DONE` or keep-alive is disabled it
raises a protocol error and leaves the connection exactly as it was; but
when only the 100-continue flag blocks reuse, it raises an assertion error
with the roles already reset and the method already cleared. -/
theorem C9_prepare_to_reuse :
    (∀ c : Conn,
        ¬(c.cstate.client = .done ∧ c.cstate.server = .done ∧ c.cstate.keepAlive = true) →
        c.prepareToReuse = (.error (.protocolError "not in a reusable state" none), c))
    ∧ (∀ c : Conn, c.cstate.client = .done → c.cstate.server = .done →
        c.cstate.keepAlive = true → c.clientWaiting100 = false →
        (c.prepareToReuse).1 = .ok ()
        ∧ (c.prepareToReuse).2.cstate.client = .idle
        ∧ (c.prepareToReuse).2.cstate.server = .idle
        ∧ (c.prepareToReuse).2.requestMethod = none
        ∧ (c.prepareToReuse).2.theirHttpVersion = c.theirHttpVersion
        ∧ (c.prepareToReuse).2.cstate.keepAlive = c.cstate.keepAlive
        ∧ (c.prepareToReuse).2.receiveBuffer = c.receiveBuffer
        ∧ (c.prepareToReuse).2.receiveBufferClosed = c.receiveBufferClosed
        ∧ (c.prepareToReuse).2.ourRole = c.ourRole)
    ∧ (∀ c : Conn, c.cstate.client = .done → c.cstate.server = .done →
        c.cstate.keepAlive = true → c.clientWaiting100 = true →
        (c.prepareToReuse).1
          = .error (.assertionError "not self.client_is_waiting_for_100_continue")
        ∧ (c.prepareToReuse).2.cstate.client = .idle
        ∧ (c.prepareToReuse).2.cstate.server = .idle
        ∧ (c.prepareToReuse).2.requestMethod = none) := by
  refine ⟨?_, ?_, ?_⟩
  · intro c hno
    unfold Conn.prepareToReuse CState.prepareToReuse
    rw [if_neg hno]
  · intro c h1 h2 h3 h4
    obtain ⟨our, mx, cs, rd, wr, buf, cl, thv, rm, cw⟩ := c
    obtain ⟨csc, css, ka, pend⟩ := cs
    dsimp at h1 h2 h3 h4
    subst h1; subst h2; subst h3; subst h4
    cases our <;>
      exact ⟨rfl, rfl, rfl, rfl, rfl, rfl, rfl, rfl, rfl⟩
  · intro c h1 h2 h3 h4
    obtain ⟨our, mx, cs, rd, wr, buf, cl, thv, rm, cw⟩ := c
    obtain ⟨csc, css, ka, pend⟩ := cs
    dsimp at h1 h2 h3 h4
    subst h1; subst h2; subst h3; subst h4
    exact ⟨rfl, rfl, rfl, rfl⟩

/-- C9 (witness): the amended theorem applied at concrete inputs: a
reusable connection is reset to idle with its peer version preserved, and a
connection still sending fails with the protocol error and no change. -/
theorem C9_prepare_to_reuse_witness :
    (({ doneWaitingConn with clientWaiting100 := false } : Conn).prepareToReuse.1 = .ok ()
      ∧ ({ doneWaitingConn with clientWaiting100 := false } : Conn).prepareToReuse.2.theirHttpVersion
          = some (bs "1.1"))
    ∧ ({ doneWaitingConn with
          cstate := { client := .sendBody, server := .sendResponse,
                      keepAlive := true, pending := [] } } : Conn).prepareToReuse
        = (.error (.protocolError "not in a reusable state" none),
           { doneWaitingConn with
              cstate := { client := .sendBody, server := .sendResponse,
                          keepAlive := true, pending := [] } }) := by
  constructor
  · have h := C9_prepare_to_reuse.2.1
      ({ doneWaitingConn with clientWaiting100 := false }) rfl rfl rfl rfl
    exact ⟨h.1, h.2.2.2.2.1⟩
  · exact C9_prepare_to_reuse.1 _ (by decide)

/-- Lowercasing a byte twice is the same as once. -/
theorem lowerByte_idem (n : Nat) : lowerByte (lowerByte n) = lowerByte n := by
  unfold lowerByte
  split
  · rw [if_neg (by omega)]
  · rfl

/-- Lowercasing a byte string twice is the same as once. -/
theorem lowerB_idem (b : Bytes) : lowerB (lowerB b) = lowerB b := by
  induction b with
  | nil => rfl
  | cons a t ih =>
    simp only [lowerB, List.map_cons] at ih ⊢
    rw [lowerByte_idem]
    exact congrArg _ (by simpa [lowerB] using ih)

/-- Lowercasing never turns a byte into whitespace or vice versa. -/
theorem isPyWS_lowerByte (n : Nat) : isPyWS (lowerByte n) = isPyWS n := by
  unfold lowerByte isPyWS
  split
  · rename_i h
    apply decide_eq_decide.mpr
    omega
  · rfl

/-- `dropWhile` commutes with byte lowercasing. -/
theorem dropWhile_lowerB (b : Bytes) :
    (lowerB b).dropWhile isPyWS = lowerB (b.dropWhile isPyWS) := by
  induction b with
  | nil => rfl
  | cons a t ih =>
    simp only [lowerB, List.map_cons, List.dropWhile_cons]
    rw [isPyWS_lowerByte]
    cases h : isPyWS a with
    | true => simpa [lowerB, h] using ih
    | false => simp [h, lowerB]

/-- Stripping commutes with byte lowercasing. -/
theorem bstrip_lowerB (b : Bytes) : bstrip (lowerB b) = lowerB (bstrip b) := by
  unfold bstrip
  rw [dropWhile_lowerB]
  show ((lowerB _).reverse.dropWhile _).reverse = _
  rw [show (lowerB (b.dropWhile isPyWS)).reverse
      = lowerB (b.dropWhile isPyWS).reverse from (List.map_reverse _ _).symm]
  rw [dropWhile_lowerB]
  exact (List.map_reverse _ _).symm

/-- `dropWhile` is idempotent. -/
theorem dropWhile_idem (p : Nat → Bool) (l : Bytes) :
    (l.dropWhile p).dropWhile p = l.dropWhile p := by
  induction l with
  | nil => rfl
  | cons a t ih =>
    cases h : p a with
    | true => simp [List.dropWhile_cons, h, ih]
    | false => simp [List.dropWhile_cons, h]

/-- The head of a `dropWhile` result fails the predicate. -/
theorem head_dropWhile_false (p : Nat → Bool) (l : Bytes) :
    ∀ a t, l.dropWhile p = a :: t → p a = false := by
  induction l with
  | nil => intro a t h; cases h
  | cons b r ih =>
    intro a t h
    cases hb : p b with
    | true => rw [List.dropWhile_cons, if_pos (by simp [hb])] at h; exact ih a t h
    | false =>
      rw [List.dropWhile_cons, if_neg (by simp [hb])] at h
      cases h
      exact hb

/-- `dropWhile` keeps the last element when its result is non-empty. -/
theorem getLast?_dropWhile (p : Nat → Bool) (l : Bytes)
    (h : l.dropWhile p ≠ []) : (l.dropWhile p).getLast? = l.getLast? := by
  induction l with
  | nil => simp at h
  | cons b r ih =>
    cases hb : p b with
    | true =>
      rw [List.dropWhile_cons, if_pos (by simp [hb])] at h ⊢
      have hr : r ≠ [] := by
        intro hr
        rw [hr] at h
        simp at h
      obtain ⟨x, y, hxy⟩ := List.exists_cons_of_ne_nil hr
      rw [ih h, hxy, List.getLast?_cons_cons]
    | false =>
      rw [List.dropWhile_cons, if_neg (by simp [hb])]

/-- A list whose head fails the predicate is unchanged by `dropWhile`. -/
theorem dropWhile_of_head_false {p : Nat → Bool} {l : Bytes} {a : Nat} {t : Bytes}
    (hl : l = a :: t) (ha : p a = false) : l.dropWhile p = l := by
  subst hl
  simp [List.dropWhile_cons, ha]

/-- Stripping is idempotent. -/
theorem bstrip_idem (b : Bytes) : bstrip (bstrip b) = bstrip b := by
  unfold bstrip
  set u := b.dropWhile isPyWS with hu
  cases hv : u.reverse.dropWhile isPyWS with
  | nil => simp [hv]
  | cons a t =>
    have hvne : u.reverse.dropWhile isPyWS ≠ [] := by rw [hv]; simp
    have hrev : (a :: t).reverse.getLast? = some a := by
      simp [List.getLast?_reverse]
    have hlast : (a :: t).getLast? = u.reverse.getLast? := by
      rw [← hv]
      exact getLast?_dropWhile _ _ hvne
    have hune : u ≠ [] := by
      intro h
      rw [h] at hv
      simp at hv
    obtain ⟨a0, t0, ha0⟩ := List.exists_cons_of_ne_nil hune
    have hfa0 : isPyWS a0 = false := head_dropWhile_false isPyWS b a0 t0 (by rw [← hu, ha0])
    have hlastu : u.reverse.getLast? = some a0 := by
      rw [List.getLast?_reverse, ha0]
      rfl
    have haa0 : (a :: t).getLast? = some a0 := by rw [hlast, hlastu]
    -- the reversed stripped list starts with the last element of a :: t,
    -- i.e. with a0, which is not whitespace
    obtain ⟨a1, t1, hat⟩ := List.exists_cons_of_ne_nil
      (show (a :: t).reverse ≠ [] by simp)
    have ha1 : a1 = a0 := by
      have := List.head?_reverse (a :: t)
      rw [hat] at this
      simp at this
      rw [haa0] at this
      exact Option.some.inj this
    have hstep1 : ((a :: t).reverse).dropWhile isPyWS = (a :: t).reverse := by
      refine dropWhile_of_head_false hat ?_
      rw [ha1]
      exact hfa0
    rw [hstep1]
    rw [List.reverse_reverse]
    have hstep2 : (a :: t).dropWhile isPyWS = a :: t := by
      refine dropWhile_of_head_false rfl ?_
      exact head_dropWhile_false isPyWS u.reverse a t hv
    rw [hstep2]

/-- Fields produced by the comma splitter contain no comma byte. -/
theorem splitCommaAux_no_comma (b : Bytes) :
    ∀ cur, (44 : Nat) ∉ cur → ∀ x ∈ splitCommaAux b cur, (44 : Nat) ∉ x := by
  induction b with
  | nil =>
    intro cur hc x hx
    unfold splitCommaAux at hx
    simp only [List.mem_singleton] at hx
    subst hx
    simpa using hc
  | cons c rest ih =>
    intro cur hc x hx
    unfold splitCommaAux at hx
    split at hx
    · simp only [List.mem_cons] at hx
      rcases hx with hx | hx
      · subst hx; simpa using hc
      · exact ih [] (by simp) x hx
    · rename_i h44
      refine ih (c :: cur) ?_ x hx
      simp only [List.mem_cons]
      rintro (h | h)
      · exact h44 h.symm
      · exact hc h

/-- Fields of `splitComma` contain no comma byte. -/
theorem mem_splitComma_no_comma {x v : Bytes} (hx : x ∈ splitComma v) :
    (44 : Nat) ∉ x :=
  splitCommaAux_no_comma v [] (by simp) x hx

/-- The comma splitter on a comma-free string returns one field. -/
theorem splitCommaAux_eq_of_no_comma (b : Bytes) :
    ∀ cur, (44 : Nat) ∉ b → splitCommaAux b cur = [cur.reverse ++ b] := by
  induction b with
  | nil => intro cur _; unfold splitCommaAux; simp
  | cons c rest ih =>
    intro cur hb
    unfold splitCommaAux
    rw [if_neg (fun h => hb (by simp [h]))]
    rw [ih (c :: cur) (fun h => hb (by simp [h]))]
    simp

/-- `splitComma` of a comma-free string is that string alone. -/
theorem splitComma_self {v : Bytes} (hv : (44 : Nat) ∉ v) : splitComma v = [v] := by
  unfold splitComma
  rw [splitCommaAux_eq_of_no_comma v [] hv]
  rfl

/-- Stripping only removes bytes. -/
theorem mem_bstrip {y : Nat} {x : Bytes} (h : y ∈ bstrip x) : y ∈ x := by
  unfold bstrip at h
  rw [List.mem_reverse] at h
  have h1 := (List.dropWhile_sublist (l := (x.dropWhile isPyWS).reverse) isPyWS).mem h
  rw [List.mem_reverse] at h1
  exact (List.dropWhile_sublist isPyWS).mem h1

/-- Lowercasing never introduces a comma byte. -/
theorem no_comma_lowerB {z : Bytes} (h : (44 : Nat) ∉ z) : (44 : Nat) ∉ lowerB z := by
  unfold lowerB
  rw [List.mem_map]
  rintro ⟨m, hm, hm44⟩
  unfold lowerByte at hm44
  split at hm44
  · omega
  · exact h (hm44 ▸ hm)

/-- Every token returned by `get_comma_header` is a fixed point of
strip-and-lowercase and contains no comma: re-reading a header set from such
tokens returns them unchanged. -/
theorem getCommaHeader_token_norm {hs : Headers} {n tok : Bytes}
    (h : tok ∈ getCommaHeader hs n) :
    lowerB (bstrip tok) = tok ∧ splitComma tok = [tok] := by
  unfold getCommaHeader at h
  rw [List.mem_flatten] at h
  obtain ⟨l, hl, htok⟩ := h
  rw [List.mem_map] at hl
  obtain ⟨p, _, hpl⟩ := hl
  rw [← hpl] at htok
  rw [List.mem_map] at htok
  obtain ⟨x, hx, hxt⟩ := htok
  constructor
  · rw [← hxt, bstrip_lowerB, bstrip_idem, lowerB_idem]
  · refine splitComma_self ?_
    rw [← hxt]
    refine no_comma_lowerB ?_
    intro hmem
    exact mem_splitComma_no_comma hx (mem_bstrip hmem)

/-- Membership in a header list after `set_comma_header`. -/
theorem mem_setCommaHeader {p : Bytes × Bytes} {hs : Headers} {n : Bytes}
    {vs : List Bytes} :
    p ∈ setCommaHeader hs n vs
      ↔ (p ∈ hs ∧ ¬lowerB p.1 = lowerB n) ∨ ∃ v ∈ vs, p = (n, v) := by
  unfold setCommaHeader
  rw [List.mem_append, List.mem_filter, List.mem_map]
  constructor
  · rintro (⟨hp, hne⟩ | ⟨v, hv, hpv⟩)
    · exact Or.inl ⟨hp, by simpa using hne⟩
    · exact Or.inr ⟨v, hv, hpv.symm⟩
  · rintro (⟨hp, hne⟩ | ⟨v, hv, hpv⟩)
    · exact Or.inl ⟨hp, by simpa using hne⟩
    · exact Or.inr ⟨v, hv, hpv.symm⟩

/-- `get_comma_header` distributes over header-list concatenation. -/
theorem getCommaHeader_append (l1 l2 : Headers) (n : Bytes) :
    getCommaHeader (l1 ++ l2) n = getCommaHeader l1 n ++ getCommaHeader l2 n := by
  unfold getCommaHeader
  rw [List.filter_append, List.map_append, List.flatten_append]

/-- Reading back the name just written by `set_comma_header` sees exactly
the written values (split, stripped, lowercased). -/
theorem getCommaHeader_set_self (hs : Headers) (n : Bytes) (vs : List Bytes) :
    getCommaHeader (setCommaHeader hs n vs) n
      = ((vs.map (fun v => (splitComma v).map (fun x => lowerB (bstrip x)))).flatten) := by
  unfold setCommaHeader
  rw [getCommaHeader_append]
  have h1 : getCommaHeader (hs.filter (fun p => !(lowerB p.1 == lowerB n))) n = [] := by
    unfold getCommaHeader
    rw [List.filter_filter]
    have : (hs.filter (fun p => (lowerB p.1 == lowerB n) && !(lowerB p.1 == lowerB n))) = [] := by
      rw [List.filter_eq_nil_iff]
      intro p _
      cases h : (lowerB p.1 == lowerB n) <;> simp [h]
    rw [this]
    rfl
  have h2 : ∀ vs' : List Bytes, getCommaHeader (vs'.map (fun v => (n, v))) n
      = ((vs'.map (fun v => (splitComma v).map (fun x => lowerB (bstrip x)))).flatten) := by
    intro vs'
    induction vs' with
    | nil => rfl
    | cons v t ih =>
      unfold getCommaHeader at ih ⊢
      simp only [List.map_cons, List.filter_cons]
      rw [if_pos (by simp)]
      simp only [List.map_cons, List.flatten_cons]
      rw [← ih]
  rw [h1, h2]
  rfl

/-- Writing one header name leaves the comma-list of another name alone. -/
theorem getCommaHeader_set_other {m n : Bytes} (hs : Headers) (vs : List Bytes)
    (hmn : ¬lowerB n = lowerB m) :
    getCommaHeader (setCommaHeader hs m vs) n = getCommaHeader hs n := by
  unfold setCommaHeader
  rw [getCommaHeader_append]
  have h2 : getCommaHeader (vs.map (fun v => (m, v))) n = [] := by
    unfold getCommaHeader
    have : ((vs.map (fun v => (m, v))).filter (fun p => lowerB p.1 == lowerB n)) = [] := by
      rw [List.filter_eq_nil_iff]
      intro p hp
      rw [List.mem_map] at hp
      obtain ⟨v, _, hpv⟩ := hp
      rw [← hpv]
      simp
      intro he
      exact hmn he.symm
    rw [this]
    rfl
  have h1 : getCommaHeader (hs.filter (fun p => !(lowerB p.1 == lowerB m))) n
      = getCommaHeader hs n := by
    unfold getCommaHeader
    rw [List.filter_filter]
    have : (hs.filter (fun p => (lowerB p.1 == lowerB n) && !(lowerB p.1 == lowerB m)))
        = hs.filter (fun p => lowerB p.1 == lowerB n) := by
      refine List.filter_congr ?_
      intro p _
      cases h : (lowerB p.1 == lowerB n) with
      | false => simp [h]
      | true =>
        have : ¬lowerB p.1 = lowerB m := by
          rw [beq_iff_eq] at h
          rw [h]
          exact hmn
        simp [h, this]
    rw [this]
  rw [h1, h2, List.append_nil]

/-- Membership in an `insertSorted` result. -/
theorem mem_insertSorted {x v : Bytes} {l : List Bytes} :
    x ∈ insertSorted v l ↔ x = v ∨ x ∈ l := by
  induction l with
  | nil => simp [insertSorted]
  | cons w ws ih =>
    unfold insertSorted
    split
    · simp
    · simp only [List.mem_cons, ih]
      tauto

/-- Sorting preserves membership. -/
theorem mem_sortBytes {x : Bytes} {l : List Bytes} :
    x ∈ sortBytes l ↔ x ∈ l := by
  induction l with
  | nil => simp [sortBytes]
  | cons v t ih =>
    show x ∈ insertSorted v (sortBytes t) ↔ _
    rw [mem_insertSorted, ih]
    simp

/-- Deduplication preserves membership. -/
theorem mem_dedupB (l : List Bytes) : ∀ x : Bytes, x ∈ dedupB l ↔ x ∈ l := by
  induction l with
  | nil => simp [dedupB]
  | cons v t ih =>
    intro x
    unfold dedupB
    dsimp only
    split
    · rename_i hv
      rw [ih x]
      simp only [List.mem_cons]
      constructor
      · exact Or.inr
      · rintro (h | h)
        · rw [h, ← ih v]; exact hv
        · exact h
    · simp only [List.mem_cons, ih x]

/-- A list of normalized tokens survives the read-back of
`get_comma_header` unchanged. -/
theorem flatten_norm_tokens (vs : List Bytes)
    (h : ∀ v ∈ vs, lowerB (bstrip v) = v ∧ splitComma v = [v]) :
    ((vs.map (fun v => (splitComma v).map (fun x => lowerB (bstrip x)))).flatten) = vs := by
  induction vs with
  | nil => rfl
  | cons v t ih =>
    obtain ⟨h1, h2⟩ := h v (by simp)
    simp only [List.map_cons, List.flatten_cons]
    rw [h2]
    simp only [List.map_cons, List.map_nil]
    rw [h1, ih (fun w hw => h w (by simp [hw]))]
    rfl

/-- Every value written into the `Connection` header by the cleanup is a
normalized token. -/
theorem closeConnVals_norm (hdrs : Headers) :
    ∀ v ∈ closeConnVals hdrs, lowerB (bstrip v) = v ∧ splitComma v = [v] := by
  intro v hv
  unfold closeConnVals at hv
  rw [mem_sortBytes, mem_dedupB, List.mem_append] at hv
  rcases hv with hv | hv
  · rw [List.mem_filter] at hv
    exact getCommaHeader_token_norm hv.1
  · rw [List.mem_singleton] at hv
    subst hv
    exact ⟨by decide, by decide⟩

/-- The cleanup always puts `close` among the `Connection` tokens. -/
theorem close_mem_closeConnVals (hdrs : Headers) :
    bs "close" ∈ closeConnVals hdrs := by
  unfold closeConnVals
  rw [mem_sortBytes, mem_dedupB, List.mem_append]
  exact Or.inr (by simp)

/-- The cleanup never leaves `keep-alive` among the `Connection` tokens. -/
theorem keepAlive_not_mem_closeConnVals (hdrs : Headers) :
    bs "keep-alive" ∉ closeConnVals hdrs := by
  unfold closeConnVals
  rw [mem_sortBytes, mem_dedupB, List.mem_append]
  rintro (h | h)
  · rw [List.mem_filter] at h
    exact absurd h.2 (by decide)
  · rw [List.mem_singleton] at h
    exact absurd h (by decide)

/-- Reading the `Connection` comma-list back after the cleanup wrote it
returns exactly the written tokens. -/
theorem getCommaHeader_closeConn (hdrs : Headers) :
    getCommaHeader (setCommaHeader hdrs (bs "Connection") (closeConnVals hdrs))
        (bs "Connection")
      = closeConnVals hdrs := by
  rw [getCommaHeader_set_self]
  exact flatten_norm_tokens _ (closeConnVals_norm hdrs)

/-- C2: for a server-side `Response` whose computed framing is `chunked` or
`http/1.0`, the cleaned headers contain no `Content-Length`; with an
HTTP/1.0 or unknown peer they contain no `Transfer-Encoding` either and
`close` is forced into the `Connection` header; with an HTTP/1.1 peer
`Transfer-Encoding: chunked` is set.  Whenever keep-alive is disabled (or
close is needed as above), `close` is added to the `Connection` comma-list
and `keep-alive` is removed from it.  The cleanup returns the response with
a fresh cleaned header list computed from — never aliasing or mutating —
the caller-supplied one. -/
theorem C2_response_header_cleanup (c : Conn) (code : Nat) (hs hs' : Headers)
    (ver : Bytes) (f : Framing)
    (hf : bodyFraming c.requestMethod (.response code hs ver) = .ok f)
    (hc : c.cleanUpResponseHeadersForSending (.response code hs ver)
          = .ok (.response code hs' ver)) :
    ((f = .chunked ∨ f = .http10) →
      (∀ p ∈ hs', ¬lowerB p.1 = bs "content-length")
      ∧ (c.peerIsHttp10OrUnknown = true →
          (∀ p ∈ hs', ¬lowerB p.1 = bs "transfer-encoding")
          ∧ bs "close" ∈ getCommaHeader hs' (bs "Connection")
          ∧ bs "keep-alive" ∉ getCommaHeader hs' (bs "Connection"))
      ∧ (c.peerIsHttp10OrUnknown = false →
          getCommaHeader hs' (bs "Transfer-Encoding") = [bs "chunked"]))
    ∧ (c.cstate.keepAlive = false →
        bs "close" ∈ getCommaHeader hs' (bs "Connection")
        ∧ bs "keep-alive" ∉ getCommaHeader hs' (bs "Connection")) := by
  unfold Conn.cleanUpResponseHeadersForSending at hc
  dsimp only at hc
  rw [hf] at hc
  dsimp only at hc
  injection hc with hc'
  injection hc' with hcode hh hver
  constructor
  · intro hfr
    rw [if_pos hfr] at hh
    by_cases hp : c.peerIsHttp10OrUnknown = true
    · rw [if_pos hp] at hh
      dsimp only at hh
      rw [if_pos (Or.inr rfl)] at hh
      refine ⟨?_, fun _ => ⟨?_, ?_, ?_⟩, fun hpf => by simp [hp] at hpf⟩
      · intro p hp'
        rw [← hh] at hp'
        rw [mem_setCommaHeader] at hp'
        rcases hp' with ⟨hp', _⟩ | ⟨v, _, hpv⟩
        · rw [mem_setCommaHeader] at hp'
          rcases hp' with ⟨hp', _⟩ | ⟨v, hv, _⟩
          · rw [mem_setCommaHeader] at hp'
            rcases hp' with ⟨_, hne⟩ | ⟨v, hv, _⟩
            · intro he
              exact hne (by rw [he]; decide)
            · cases hv
          · cases hv
        · rw [hpv]
          exact (by decide : ¬lowerB (bs "Connection") = bs "content-length")
      · intro p hp'
        rw [← hh] at hp'
        rw [mem_setCommaHeader] at hp'
        rcases hp' with ⟨hp', _⟩ | ⟨v, _, hpv⟩
        · rw [mem_setCommaHeader] at hp'
          rcases hp' with ⟨_, hne⟩ | ⟨v, hv, _⟩
          · intro he
            exact hne (by rw [he]; decide)
          · cases hv
        · rw [hpv]
          exact (by decide : ¬lowerB (bs "Connection") = bs "transfer-encoding")
      · rw [← hh, getCommaHeader_closeConn]
        exact close_mem_closeConnVals _
      · rw [← hh, getCommaHeader_closeConn]
        exact keepAlive_not_mem_closeConnVals _
    · have hp' : c.peerIsHttp10OrUnknown = false := by
        cases h : c.peerIsHttp10OrUnknown with
        | true => exact absurd h hp
        | false => rfl
      rw [if_neg (show ¬(c.peerIsHttp10OrUnknown = true) by simp [hp'])] at hh
      dsimp only at hh
      refine ⟨?_, ?_, fun _ => ?_⟩
      pick_goal 2
      · intro hpt
        rw [hp'] at hpt
        exact absurd hpt (by decide)
      · intro p hpm
        rw [← hh] at hpm
        split at hpm
        · rw [mem_setCommaHeader] at hpm
          rcases hpm with ⟨hpm, _⟩ | ⟨v, _, hpv⟩
          · rw [mem_setCommaHeader] at hpm
            rcases hpm with ⟨hpm, _⟩ | ⟨v, hv, hpv⟩
            · rw [mem_setCommaHeader] at hpm
              rcases hpm with ⟨_, hne⟩ | ⟨v, hv, _⟩
              · intro he
                exact hne (by rw [he]; decide)
              · cases hv
            · rw [hpv]
              exact (by decide : ¬lowerB (bs "Transfer-Encoding") = bs "content-length")
          · rw [hpv]
            exact (by decide : ¬lowerB (bs "Connection") = bs "content-length")
        · rw [mem_setCommaHeader] at hpm
          rcases hpm with ⟨hpm, _⟩ | ⟨v, hv, hpv⟩
          · rw [mem_setCommaHeader] at hpm
            rcases hpm with ⟨_, hne⟩ | ⟨v, hv, _⟩
            · intro he
              exact hne (by rw [he]; decide)
            · cases hv
          · rw [hpv]
            exact (by decide : ¬lowerB (bs "Transfer-Encoding") = bs "content-length")
      · rw [← hh]
        split
        · rw [getCommaHeader_set_other _ _ (by decide),
            getCommaHeader_set_self]
          decide
        · rw [getCommaHeader_set_self]
          decide
  · intro hka
    have hcond : ∀ nc : Bool, (!c.cstate.keepAlive ∨ nc = true) := by
      intro nc
      rw [hka]
      exact Or.inl rfl
    split at hh
    · by_cases hp : c.peerIsHttp10OrUnknown = true
      · rw [if_pos hp] at hh
        dsimp only at hh
        rw [if_pos (Or.inr rfl)] at hh
        rw [← hh, getCommaHeader_closeConn]
        exact ⟨close_mem_closeConnVals _, keepAlive_not_mem_closeConnVals _⟩
      · rw [if_neg (show ¬(c.peerIsHttp10OrUnknown = true) by simpa using hp)] at hh
        dsimp only at hh
        rw [if_pos (by rw [hka]; exact Or.inl rfl)] at hh
        rw [← hh, getCommaHeader_closeConn]
        exact ⟨close_mem_closeConnVals _, keepAlive_not_mem_closeConnVals _⟩
    · dsimp only at hh
      rw [if_pos (by rw [hka]; exact Or.inl rfl)] at hh
      rw [← hh, getCommaHeader_closeConn]
      exact ⟨close_mem_closeConnVals _, keepAlive_not_mem_closeConnVals _⟩

/-- C2 (witness): the cleanup theorem applied to a concrete server
connection with an HTTP/1.0 peer and a response carrying only
`Connection: keep-alive`: the cleaned headers are exactly
`Connection: close`, with `keep-alive` gone and no framing headers. -/
theorem C2_response_header_cleanup_witness :
    (∀ p ∈ [(bs "Connection", bs "close")], ¬lowerB p.1 = bs "content-length")
    ∧ bs "close" ∈ getCommaHeader [(bs "Connection", bs "close")] (bs "Connection")
    ∧ bs "keep-alive" ∉ getCommaHeader [(bs "Connection", bs "close")] (bs "Connection") := by
  have h := C2_response_header_cleanup
    ({ headServerConn with
        requestMethod := some (bs "GET"),
        theirHttpVersion := some (bs "1.0") })
    200 [(bs "Connection", bs "keep-alive")] [(bs "Connection", bs "close")]
    (bs "1.1") .http10 (by rfl) (by rfl)
  obtain ⟨h1, h2, _⟩ := h.1 (Or.inr rfl)
  obtain ⟨_, h3, h4⟩ := h2 (by rfl)
  exact ⟨h1, h3, h4⟩

end H11
